import Mathlib

set_option maxHeartbeats 1000000

/-
Verification development for the NexusAgent session-lifecycle core.

Shallow embedding of:
  - `utils/redis_manager.py` (`RedisSessionManager`): the TTL-keyed session
    store and per-user index, with lazy reconciliation;
  - `routes/agent.py` (and the identical handlers in `main.py`):
    `process_agent_result`, `invoke_agent`, `resume_agent`, `get_agent_status`;
  - `utils/tools.py` (`call_tool_with_interrupt`): the human-in-the-loop
    decision dispatch inside the agent runtime.

Redis keys are modelled as association lists; the external AgentRuntime
(`state.agent.ainvoke`) is an oracle parameter that either returns a raw
result dictionary or raises.  Wall-clock values (`time.time()`) are passed
in as explicit natural-number timestamps.
-/

namespace NexusAgent

/-- Flattened string-keyed dictionary, standing for the Python `dict` payloads
whose internal structure the core never inspects. -/
abbrev Dict := List (String × String)

/-- One entry of the `__interrupt__` list in the raw agent result: the
`.value` dictionary of a langgraph interrupt. -/
structure InterruptValue where
  interrupt_type : Option String
  action : String
  args : Dict
  description : String
deriving DecidableEq, Repr

/-- A langgraph interrupt object: an id plus its value dictionary. -/
structure Interrupt where
  id : String
  value : InterruptValue
deriving DecidableEq, Repr

/-- The raw dictionary returned by `state.agent.ainvoke`: `interrupts` is the
optional `__interrupt__` key, `payload` stands for the remaining entries
(`messages`, ...). -/
structure RawResult where
  interrupts : Option (List Interrupt)
  payload : Dict
deriving DecidableEq, Repr

/-- An interrupt value after `process_agent_result` post-processing: the
`interrupt_type` defaulted to `"unknown"` and the `interrupt_id` added. -/
structure ProcessedInterrupt where
  interrupt_id : String
  interrupt_type : String
  action : String
  args : Dict
  description : String
deriving DecidableEq, Repr

/-- The `interrupt_data` field of an `AgentResponse`: either a single
processed interrupt dictionary, or the `multiple_interrupts` wrapper with
the list of processed interrupts and a summary description. -/
inductive InterruptData where
  | single (p : ProcessedInterrupt)
  | multiple (ps : List ProcessedInterrupt) (description : String)
deriving DecidableEq, Repr

/-- Number of pending-interrupt entries an `interrupt_data` payload carries. -/
def InterruptData.count : InterruptData → Nat
  | .single _ => 1
  | .multiple ps _ => ps.length

/-- `utils/data_models.py` `AgentResponse`. -/
structure AgentResponse where
  session_id : String
  status : String
  timestamp : Nat
  message : Option String := none
  result : Option Dict := none
  interrupt_data : Option InterruptData := none
deriving DecidableEq, Repr

/-- The `last_updated` attribute of a stored session record: either the
`str(timedelta(seconds=0))` sentinel `"0:00:00"` written by `create_session`
when no timestamp is supplied, or a numeric timestamp. -/
inductive LastUpdated where
  | sentinel
  | stamp (t : Nat)
deriving DecidableEq, Repr

/-- One stored session record (the JSON value at key
`session:{user_id}:{session_id}`), together with its remaining TTL. -/
structure SessionData where
  session_id : String
  status : String
  last_response : Option AgentResponse
  last_query : Option String
  last_updated : LastUpdated
  ttl : Nat
deriving DecidableEq, Repr

/-- The Redis state the session manager operates on: the primary records
keyed by (user_id, session_id) and the `user_sessions:{user_id}` index sets
(sets are carried as lists in iteration order; Redis removes a set key when
it becomes empty). -/
structure RedisState where
  sessions : List (String × String × SessionData)
  user_sessions : List (String × List String)
deriving DecidableEq, Repr

/-- The empty store. -/
def RedisState.empty : RedisState := ⟨[], []⟩

/-- GET of the primary record `session:{u}:{s}`. -/
def lookupSession (st : RedisState) (u s : String) : Option SessionData :=
  (st.sessions.find? (fun e => e.1 == u && e.2.1 == s)).map (·.2.2)

/-- SET of the primary record `session:{u}:{s}`. -/
def setSession (st : RedisState) (u s : String) (d : SessionData) : RedisState :=
  { st with sessions :=
      (u, s, d) :: st.sessions.filter (fun e => !(e.1 == u && e.2.1 == s)) }

/-- DEL of the primary record `session:{u}:{s}` (also how TTL expiry of a
record is reflected in the model). -/
def removeSession (st : RedisState) (u s : String) : RedisState :=
  { st with sessions := st.sessions.filter (fun e => !(e.1 == u && e.2.1 == s)) }

/-- SMEMBERS of `user_sessions:{u}` (empty when the key is absent). -/
def lookupIndex (st : RedisState) (u : String) : List String :=
  ((st.user_sessions.find? (fun e => e.1 == u)).map (·.2)).getD []

/-- EXISTS of the index key `user_sessions:{u}`. -/
def indexHasKey (st : RedisState) (u : String) : Bool :=
  st.user_sessions.any (fun e => e.1 == u)

/-- Overwrite the index key `user_sessions:{u}` with the given member list. -/
def setIndex (st : RedisState) (u : String) (ids : List String) : RedisState :=
  { st with user_sessions :=
      (u, ids) :: st.user_sessions.filter (fun e => !(e.1 == u)) }

/-- DEL of the index key `user_sessions:{u}`. -/
def removeIndex (st : RedisState) (u : String) : RedisState :=
  { st with user_sessions := st.user_sessions.filter (fun e => !(e.1 == u)) }

/-- SADD of `s` into `user_sessions:{u}` (creates the key when absent). -/
def saddIndex (st : RedisState) (u s : String) : RedisState :=
  let ids := lookupIndex st u
  setIndex st u (if ids.contains s then ids else ids ++ [s])

/-- SREM of `s` from `user_sessions:{u}`; Redis deletes a set key that
becomes empty. -/
def sremIndex (st : RedisState) (u s : String) : RedisState :=
  let ids := (lookupIndex st u).filter (fun x => !(x == s))
  if ids.isEmpty then removeIndex st u else setIndex st u ids

/-- `ConfigRedis.TTL` (default `3600`), passed explicitly by every route
handler as the `ttl` argument of store writes. -/
def ConfigRedis_TTL : Nat := 3600

/-- `ConfigRedis.SESSION_TIMEOUT` (default `300`), the manager's
`session_timeout` fallback used when no `ttl` is supplied. -/
def ConfigRedis_SESSION_TIMEOUT : Nat := 300

/-- `RedisSessionManager.create_session` (with an explicit `session_id`, as
every caller in the routes supplies one): inserts the record with a fresh
TTL — the `"0:00:00"` sentinel standing in when no `last_updated` is given —
and SADDs the session id into the user's index set.  Returns the new state
and the `session_id`. -/
def create_session (st : RedisState) (user_id session_id : String)
    (status : String) (last_query : Option String)
    (last_response : Option AgentResponse) (last_updated : Option Nat)
    (ttl : Option Nat) (session_timeout : Nat) : RedisState × String :=
  let lu : LastUpdated := match last_updated with
    | none => .sentinel
    | some t => .stamp t
  let effective_ttl := ttl.getD session_timeout
  let d : SessionData :=
    { session_id := session_id, status := status,
      last_response := last_response, last_query := last_query,
      last_updated := lu, ttl := effective_ttl }
  (saddIndex (setSession st user_id session_id d) user_id session_id, session_id)

/-- `RedisSessionManager.update_session`: if the record exists, read it,
overwrite exactly the non-`None` arguments, store it back with
`ex = ttl or session_timeout`, and return `true`; otherwise return `false`
and leave the store untouched. -/
def update_session (st : RedisState) (user_id session_id : String)
    (status : Option String) (last_query : Option String)
    (last_response : Option AgentResponse) (last_updated : Option Nat)
    (ttl : Option Nat) (session_timeout : Nat) : RedisState × Bool :=
  match lookupSession st user_id session_id with
  | none => (st, false)
  | some current_data =>
    let d : SessionData :=
      { current_data with
        status := status.getD current_data.status,
        last_response := match last_response with
          | some r => some r
          | none => current_data.last_response,
        last_query := match last_query with
          | some q => some q
          | none => current_data.last_query,
        last_updated := match last_updated with
          | some t => .stamp t
          | none => current_data.last_updated,
        ttl := ttl.getD session_timeout }
    (setSession st user_id session_id d, true)

/-- `RedisSessionManager.get_session`: GET of the record (the JSON decode
and the `last_response` re-validation are identities here because records
are stored typed). -/
def get_session (st : RedisState) (user_id session_id : String) :
    Option SessionData :=
  lookupSession st user_id session_id

/-- `RedisSessionManager.cleanup_user_sessions`: for each member of the
user's index set whose primary record no longer exists, SREM it; afterwards,
if the set has no members left, DEL the set key. -/
def cleanup_user_sessions (st : RedisState) (u : String) : RedisState :=
  let live := (lookupIndex st u).filter
    (fun s => (lookupSession st u s).isSome)
  if live.isEmpty then removeIndex st u else setIndex st u live

/-- `RedisSessionManager.session_id_exists`: cleanup first, then EXISTS on
the primary record key. -/
def session_id_exists (st : RedisState) (user_id session_id : String) :
    RedisState × Bool :=
  let st1 := cleanup_user_sessions st user_id
  (st1, (lookupSession st1 user_id session_id).isSome)

/-- `RedisSessionManager.user_id_exists`: cleanup first, then EXISTS on the
index key. -/
def user_id_exists (st : RedisState) (user_id : String) : RedisState × Bool :=
  let st1 := cleanup_user_sessions st user_id
  (st1, indexHasKey st1 user_id)

/-- `RedisSessionManager.get_all_session_ids`: cleanup first, then SMEMBERS
of the user's index set. -/
def get_all_session_ids (st : RedisState) (user_id : String) :
    RedisState × List String :=
  let st1 := cleanup_user_sessions st user_id
  (st1, lookupIndex st1 user_id)

/-- The scan of `get_user_active_session_id`: fold over the index members,
keeping the session id with the greatest numeric `last_updated` (the
accumulator plays the role of `latest_timestamp = -1`); records that are
gone and records whose `last_updated` is the `"0:00:00"` sentinel are
skipped. -/
def bestSessionScan (st : RedisState) (u : String) :
    List String → Option (String × Nat) → Option String
  | [], acc => acc.map (·.1)
  | s :: rest, acc =>
    match lookupSession st u s with
    | none => bestSessionScan st u rest acc
    | some d =>
      match d.last_updated with
      | .sentinel => bestSessionScan st u rest acc
      | .stamp t =>
        match acc with
        | none => bestSessionScan st u rest (some (s, t))
        | some best =>
          if t > best.2 then bestSessionScan st u rest (some (s, t))
          else bestSessionScan st u rest acc

/-- `RedisSessionManager.get_user_active_session_id`: cleanup first, then
return the member session id with the greatest numeric `last_updated`, or
`None` when no member qualifies. -/
def get_user_active_session_id (st : RedisState) (user_id : String) :
    RedisState × Option String :=
  let st1 := cleanup_user_sessions st user_id
  (st1, bestSessionScan st1 user_id (lookupIndex st1 user_id) none)

/-- `RedisSessionManager.cleanup_all_sessions`: cleanup every user named by
a `user_sessions:*` key. -/
def cleanup_all_sessions (st : RedisState) : RedisState :=
  (st.user_sessions.map (·.1)).foldl cleanup_user_sessions st

/-- `RedisSessionManager.get_all_users_session_ids`: cleanup all users, then
collect every index key with a non-empty member list. -/
def get_all_users_session_ids (st : RedisState) :
    RedisState × List (String × List String) :=
  let st1 := cleanup_all_sessions st
  (st1, st1.user_sessions.filter (fun e => !(e.2.isEmpty)))

/-- `RedisSessionManager.delete_session`: SREM the id from the user's index
set, then DEL the primary record, reporting whether a record was deleted. -/
def delete_session (st : RedisState) (user_id session_id : String) :
    RedisState × Bool :=
  let st1 := sremIndex st user_id session_id
  let existed := (lookupSession st1 user_id session_id).isSome
  (removeSession st1 user_id session_id, existed)

/-- What the external AgentRuntime (`state.agent.ainvoke`) does on one call:
either return a raw result dictionary or raise with a message. -/
inductive AgentBehavior where
  | returns (r : RawResult)
  | throws (msg : String)
deriving DecidableEq, Repr

/-- The resume instruction the route hands to `Command(resume=...)`:
the batch map from `interrupt_responses`, an explicitly keyed single
decision, or the legacy positional single decision. -/
inductive CommandData where
  | batch (m : List (String × Dict))
  | keyed (interrupt_id : String) (response_type : String) (args : Dict)
  | legacy (response_type : String) (args : Option Dict)
deriving DecidableEq, Repr

/-- Observable side effects of one route handler, in program order:
session-store writes (record creation / `update_session` attempts with
their return value) and the AgentRuntime call. -/
inductive Ev where
  | create (u s : String)
  | update (u s : String) (ok : Bool)
  | invokeCall
  | resumeCall (cmd : CommandData)
deriving DecidableEq, Repr

/-- Whether an event is a session-store write. -/
def Ev.isWrite : Ev → Bool
  | .create _ _ => true
  | .update _ _ _ => true
  | _ => false

/-- Whether an event is an AgentRuntime call. -/
def Ev.isAgentCall : Ev → Bool
  | .invokeCall => true
  | .resumeCall _ => true
  | _ => false

/-- `utils/data_models.py` `InterruptResponse`, the body of a resume
request. -/
structure InterruptResponse where
  user_id : String
  session_id : String
  response_type : String
  args : Option Dict := none
  interrupt_id : Option String := none
  interrupt_responses : Option (List (String × Dict)) := none
deriving DecidableEq, Repr

/-- An `HTTPException` raised by a route handler. -/
structure HTTPError where
  status_code : Nat
  detail : String
deriving DecidableEq, Repr

/-- Decidable equality for route results. -/
instance : DecidableEq (Except HTTPError AgentResponse) := fun a b =>
  match a, b with
  | .error e, .error e' =>
    if h : e = e' then isTrue (by rw [h]) else
      isFalse (by intro hc; cases hc; exact h rfl)
  | .ok r, .ok r' =>
    if h : r = r' then isTrue (by rw [h]) else
      isFalse (by intro hc; cases hc; exact h rfl)
  | .error _, .ok _ => isFalse (by intro hc; cases hc)
  | .ok _, .error _ => isFalse (by intro hc; cases hc)

/-- Python truthiness of `response.interrupt_responses` (a missing or empty
dict is falsy). -/
def truthyResponses : Option (List (String × Dict)) → Bool
  | none => false
  | some m => !m.isEmpty

/-- Python truthiness of `response.interrupt_id` (a missing or empty string
is falsy). -/
def truthyId : Option String → Bool
  | none => false
  | some s => !(s == "")

/-- The `command_data` construction in `resume_agent`: batch when
`interrupt_responses` is truthy, explicitly keyed when `interrupt_id` is
truthy, otherwise the backward-compatible positional form. -/
def buildCommand (response : InterruptResponse) : CommandData :=
  if truthyResponses response.interrupt_responses then
    .batch (response.interrupt_responses.getD [])
  else if truthyId response.interrupt_id then
    .keyed (response.interrupt_id.getD "") response.response_type
      (response.args.getD [])
  else
    .legacy response.response_type response.args

/-- Post-processing of one interrupt in `process_agent_result`: default the
`interrupt_type` to `"unknown"` and attach the `interrupt_id`. -/
def processInterrupt (i : Interrupt) : ProcessedInterrupt :=
  { interrupt_id := i.id,
    interrupt_type := i.value.interrupt_type.getD "unknown",
    action := i.value.action,
    args := i.value.args,
    description := i.value.description }

/-- The `try` block of `process_agent_result`, building the `AgentResponse`
from the raw agent result: more than one `__interrupt__` entry gives the
`multiple_interrupts` payload, exactly one gives the single payload, an
empty `__interrupt__` list makes `interrupts[0]` raise `IndexError` which
the surrounding `except` turns into an error response, and an absent
`__interrupt__` key gives a completed response. -/
def classify_agent_result (session_id : String) (result : RawResult)
    (now : Nat) : AgentResponse :=
  match result.interrupts with
  | some interrupts =>
    if interrupts.length > 1 then
      { session_id := session_id, status := "interrupted", timestamp := now,
        interrupt_data := some (.multiple (interrupts.map processInterrupt)
          ("检测到" ++ toString interrupts.length ++ "个工具调用需要审核")) }
    else
      match interrupts with
      | [] =>
        { session_id := session_id, status := "error", timestamp := now,
          message := some "处理智能体结果时出错: list index out of range" }
      | i :: _ =>
        { session_id := session_id, status := "interrupted", timestamp := now,
          interrupt_data := some (.single (processInterrupt i)) }
  | none =>
    { session_id := session_id, status := "completed", timestamp := now,
      result := some result.payload }

/-- `routes/agent.py` `process_agent_result`: classify the raw result, then
— only if `session_id_exists` (which first reconciles the user's index) —
persist `status = response.status`, `last_query = None`,
`last_response = response`, `last_updated = time.time()` with
`ttl = ConfigRedis.TTL`; finally return the response. -/
def process_agent_result (st : RedisState) (user_id session_id : String)
    (result : RawResult) (now : Nat) : RedisState × AgentResponse × List Ev :=
  let response := classify_agent_result session_id result now
  let ex := session_id_exists st user_id session_id
  if ex.2 then
    let upd := update_session ex.1 user_id session_id (some response.status)
      none (some response) (some now) (some ConfigRedis_TTL)
      ConfigRedis_SESSION_TIMEOUT
    (upd.1, response, [.update user_id session_id upd.2])
  else
    (ex.1, response, [])

/-- The part of `invoke_agent` that runs before the AgentRuntime call:
create the record as `idle` when it does not exist, then unconditionally
update it to `running` with the new `last_query` and a fresh TTL. -/
def invoke_pre (st : RedisState) (user_id session_id query : String)
    (now : Nat) : RedisState × List Ev :=
  let ex := session_id_exists st user_id session_id
  let created :=
    if ex.2 then (ex.1, ([] : List Ev))
    else ((create_session ex.1 user_id session_id "idle" none none (some now)
      (some ConfigRedis_TTL) ConfigRedis_SESSION_TIMEOUT).1,
      [Ev.create user_id session_id])
  let upd := update_session created.1 user_id session_id (some "running")
    (some query) none (some now) (some ConfigRedis_TTL)
    ConfigRedis_SESSION_TIMEOUT
  (upd.1, created.2 ++ [.update user_id session_id upd.2])

/-- The error `AgentResponse` built by the exception handler of
`invoke_agent` (message head `处理请求时出错`). -/
def invoke_error_response (session_id msg : String) (t : Nat) : AgentResponse :=
  { session_id := session_id, status := "error", timestamp := t,
    message := some ("处理请求时出错: " ++ msg) }

/-- The error `AgentResponse` built by the exception handler of
`resume_agent` (message head `恢复执行时出错`). -/
def resume_error_response (session_id msg : String) (t : Nat) : AgentResponse :=
  { session_id := session_id, status := "error", timestamp := t,
    message := some ("恢复执行时出错: " ++ msg) }

/-- `routes/agent.py` `invoke_agent` (the long-term-memory read only affects
the system message, which the session core never stores): run the pre-call
writes, call the agent, and either persist the classified outcome via
`process_agent_result` or absorb a raised exception into an error response
persisted with `status = "error"`.  `t0` and `t1` are the `time.time()`
readings before and after the AgentRuntime call. -/
def invoke_agent (st : RedisState) (user_id session_id query : String)
    (beh : AgentBehavior) (t0 t1 : Nat) :
    RedisState × AgentResponse × List Ev :=
  let pre := invoke_pre st user_id session_id query t0
  match beh with
  | .returns r =>
    let post := process_agent_result pre.1 user_id session_id r t1
    (post.1, post.2.1, pre.2 ++ [.invokeCall] ++ post.2.2)
  | .throws msg =>
    let error_response := invoke_error_response session_id msg t1
    let upd := update_session pre.1 user_id session_id (some "error") none
      (some error_response) (some t1) (some ConfigRedis_TTL)
      ConfigRedis_SESSION_TIMEOUT
    (upd.1, error_response,
      pre.2 ++ [.invokeCall, .update user_id session_id upd.2])

/-- The part of `resume_agent` that runs before the AgentRuntime call:
404 when the session does not exist, 400 when its status is not
`"interrupted"`, otherwise the update to `running` (which, passing `None`
for `last_query` and `last_response`, overwrites neither). -/
def resume_begin (st : RedisState) (response : InterruptResponse)
    (now : Nat) : RedisState × Option HTTPError × List Ev :=
  let u := response.user_id
  let s := response.session_id
  let ex := session_id_exists st u s
  if !ex.2 then
    (ex.1, some ⟨404, "用户会话 " ++ u ++ ":" ++ s ++ " 不存在"⟩, [])
  else
    let status := ((get_session ex.1 u s).map (·.status)).getD ""
    if !(status == "interrupted") then
      (ex.1, some ⟨400, "会话当前状态为 " ++ status ++ "，无法恢复非中断状态的会话"⟩, [])
    else
      let upd := update_session ex.1 u s (some "running") none none
        (some now) (some ConfigRedis_TTL) ConfigRedis_SESSION_TIMEOUT
      (upd.1, none, [.update u s upd.2])

/-- `routes/agent.py` `resume_agent`: the pre-call checks and `running`
update, then the AgentRuntime call with the constructed `command_data`,
then outcome persistence exactly as in `invoke_agent` (the error message
head differing). -/
def resume_agent (st : RedisState) (response : InterruptResponse)
    (beh : AgentBehavior) (t0 t1 : Nat) :
    RedisState × Except HTTPError AgentResponse × List Ev :=
  let u := response.user_id
  let s := response.session_id
  let begun := resume_begin st response t0
  match begun.2.1 with
  | some e => (begun.1, .error e, begun.2.2)
  | none =>
    let cmd := buildCommand response
    match beh with
    | .returns r =>
      let post := process_agent_result begun.1 u s r t1
      (post.1, .ok post.2.1, begun.2.2 ++ [.resumeCall cmd] ++ post.2.2)
    | .throws msg =>
      let error_response := resume_error_response s msg t1
      let upd := update_session begun.1 u s (some "error") none
        (some error_response) (some t1) (some ConfigRedis_TTL)
        ConfigRedis_SESSION_TIMEOUT
      (upd.1, .ok error_response,
        begun.2.2 ++ [.resumeCall cmd, .update u s upd.2])

/-- `utils/data_models.py` `SessionStatusResponse`. -/
structure SessionStatusResponse where
  user_id : String
  session_id : Option String := none
  status : String
  message : Option String := none
  last_query : Option String := none
  last_updated : Option LastUpdated := none
  last_response : Option AgentResponse := none
deriving DecidableEq, Repr

/-- `routes/agent.py` `get_agent_status`: `not_found` when the record is
absent, otherwise the record's status, last query, last update time and
last response. -/
def get_agent_status (st : RedisState) (user_id session_id : String) :
    RedisState × SessionStatusResponse :=
  let ex := session_id_exists st user_id session_id
  if !ex.2 then
    (ex.1,
     { user_id := user_id, session_id := some session_id,
       status := "not_found",
       message := some ("用户 " ++ user_id ++ ":" ++ session_id ++ " 的会话不存在") })
  else
    match get_session ex.1 user_id session_id with
    | none =>
      (ex.1,
       { user_id := user_id, session_id := some session_id,
         status := "not_found", message := none })
    | some d =>
      (ex.1,
       { user_id := user_id, session_id := some session_id,
         status := d.status, last_query := d.last_query,
         last_updated := some d.last_updated,
         last_response := d.last_response })

/-- langgraph's `HumanInterruptConfig`: the per-tool declaration of which
decision kinds are allowed (the `allowed_decisions` of the specification). -/
structure HumanInterruptConfig where
  allow_accept : Bool
  allow_edit : Bool
  allow_respond : Bool
  allow_ignore : Bool
deriving DecidableEq, Repr

/-- The decision dictionary delivered to `interrupt()` inside the tool
wrapper when the run is resumed: its `type`, the `args.args` replacement
arguments (meaningful for `edit`), and the `args` literal feedback text
(meaningful for `response`). -/
structure InterruptReply where
  type : String
  edited_args : Option Dict := none
  feedback : Option String := none
deriving DecidableEq, Repr

/-- What one guarded tool call does after the human decision arrives. -/
inductive ToolStep where
  | executed (args : Dict)
  | replied (msg : String)
  | valueError (msg : String)
  | pyError (msg : String)
deriving DecidableEq, Repr

/-- `utils/tools.py` `call_tool_with_interrupt` after `interrupt()` hands
back the decision: `accept` runs the tool on the original input, `edit` runs
it on `response.args.args` (a missing key raising `KeyError`), `reject`
substitutes the fixed refusal text, `response` substitutes the literal
feedback, and any other type raises `ValueError`.  The per-tool
`interrupt_config` is carried into the interrupt request but never consulted
by this dispatch. -/
def call_tool_with_interrupt (tool_name : String) (tool_input : Dict)
    (interrupt_config : Option HumanInterruptConfig)
    (reply : InterruptReply) : ToolStep :=
  if reply.type == "accept" then
    .executed tool_input
  else if reply.type == "edit" then
    match reply.edited_args with
    | some new_args => .executed new_args
    | none => .pyError "KeyError: args"
  else if reply.type == "reject" then
    .replied "该工具被拒绝使用，请尝试其他方法或拒绝回答问题。"
  else if reply.type == "response" then
    match reply.feedback with
    | some user_feedback => .replied user_feedback
    | none => .pyError "KeyError: args"
  else
    .valueError ("不支持的中断响应类型: " ++ reply.type)

/-- Session-store states reachable through the service: the empty store,
followed by any interleaving of complete invoke/resume handlers, their
in-flight prefixes (the store state persisted while the AgentRuntime call
is pending), the read endpoints (whose lazy reconciliation mutates the
index), deletion, and TTL expiry of a primary record. -/
inductive Reach : RedisState → Prop where
  | init : Reach RedisState.empty
  | invoke_done (st : RedisState) (u s q : String) (beh : AgentBehavior)
      (t0 t1 : Nat) : Reach st → Reach (invoke_agent st u s q beh t0 t1).1
  | invoke_inflight (st : RedisState) (u s q : String) (t0 : Nat) :
      Reach st → Reach (invoke_pre st u s q t0).1
  | resume_done (st : RedisState) (resp : InterruptResponse)
      (beh : AgentBehavior) (t0 t1 : Nat) :
      Reach st → Reach (resume_agent st resp beh t0 t1).1
  | resume_inflight (st : RedisState) (resp : InterruptResponse) (t0 : Nat) :
      Reach st → Reach (resume_begin st resp t0).1
  | status_read (st : RedisState) (u s : String) :
      Reach st → Reach (get_agent_status st u s).1
  | active_read (st : RedisState) (u : String) :
      Reach st → Reach (get_user_active_session_id st u).1
  | list_read (st : RedisState) (u : String) :
      Reach st → Reach (get_all_session_ids st u).1
  | user_read (st : RedisState) (u : String) :
      Reach st → Reach (user_id_exists st u).1
  | all_read (st : RedisState) :
      Reach st → Reach (get_all_users_session_ids st).1
  | delete (st : RedisState) (u s : String) :
      Reach st → Reach (delete_session st u s).1
  | expire (st : RedisState) (u s : String) :
      Reach st → Reach (removeSession st u s)

/-- Whether a stored `last_response` carries one or more pending-interrupt
entries awaiting decisions. -/
def carriesPendingInterrupts : Option AgentResponse → Bool
  | some resp =>
    match resp.interrupt_data with
    | some d => decide (1 ≤ d.count)
    | none => false
  | none => false

/-- The record-level invariant claimed by the specification, in its
left-to-right direction: an `interrupted` record always carries a
pending-interrupt payload. -/
def InterruptedCarries (st : RedisState) : Prop :=
  ∀ u s d, lookupSession st u s = some d → d.status = "interrupted" →
    carriesPendingInterrupts d.last_response = true

/-- Fallback record used when reading a demo record out of an `Option`. -/
def defaultSessionData : SessionData :=
  { session_id := "", status := "", last_response := none,
    last_query := none, last_updated := .sentinel, ttl := 0 }

/-- A pending tool-approval interrupt as raised by a guarded tool. -/
def demoInterrupt : Interrupt :=
  ⟨"i1", { interrupt_type := none, action := "book_flight_ticket",
           args := [("flight", "CA123")], description := "approve?" }⟩

/-- A second pending interrupt (for the batched scenario). -/
def demoInterrupt2 : Interrupt :=
  ⟨"i2", { interrupt_type := none, action := "book_hotel",
           args := [("hotel_name", "Hilton")], description := "approve?" }⟩

/-- A third pending interrupt (for the batched scenario). -/
def demoInterrupt3 : Interrupt :=
  ⟨"i3", { interrupt_type := none, action := "maps_navigate",
           args := [], description := "approve?" }⟩

/-- An agent outcome pausing on one interrupt. -/
def demoOutcome : RawResult := ⟨some [demoInterrupt], []⟩

/-- An agent outcome pausing on three interrupts at once. -/
def demoOutcome3 : RawResult :=
  ⟨some [demoInterrupt, demoInterrupt2, demoInterrupt3], []⟩

/-- An agent outcome that completed with no interrupts. -/
def demoDone : RawResult := ⟨none, [("messages", "done")]⟩

/-- Store state after an invoke that paused on one interrupt. -/
def demoStateInterrupted : RedisState :=
  (invoke_agent RedisState.empty "u1" "s1" "book a flight"
    (.returns demoOutcome) 1 2).1

/-- Store state after an invoke that paused on three interrupts. -/
def demoState3 : RedisState :=
  (invoke_agent RedisState.empty "u1" "s1" "plan a trip"
    (.returns demoOutcome3) 1 2).1

/-- Store state after an invoke that completed. -/
def demoStateCompleted : RedisState :=
  (invoke_agent RedisState.empty "u1" "s1" "hello" (.returns demoDone) 1 2).1

/-- A legacy single-decision resume request. -/
def demoResumeReq : InterruptResponse :=
  { user_id := "u1", session_id := "s1", response_type := "accept" }

/-- A legacy resume request carrying an `edit` decision. -/
def demoEditResumeReq : InterruptResponse :=
  { user_id := "u1", session_id := "s1", response_type := "edit",
    args := some [("args", "edited")] }

/-- A batch resume request answering only two of three pending interrupts. -/
def demoPartialBatchReq : InterruptResponse :=
  { user_id := "u1", session_id := "s1", response_type := "accept",
    interrupt_responses := some [("i1", [("type", "accept")]),
                                 ("i2", [("type", "accept")])] }

/-- Store state persisted while a resume of the interrupted session is
in flight (after the `running` update, before the outcome write). -/
def demoStateMidResume : RedisState :=
  (resume_begin demoStateInterrupted demoResumeReq 3).1

/-- The interrupted session record. -/
def demoRecordInterrupted : SessionData :=
  (lookupSession demoStateInterrupted "u1" "s1").getD defaultSessionData

/-- The completed session record. -/
def demoRecordCompleted : SessionData :=
  (lookupSession demoStateCompleted "u1" "s1").getD defaultSessionData

/-- The three-interrupt session record. -/
def demoRecord3 : SessionData :=
  (lookupSession demoState3 "u1" "s1").getD defaultSessionData

/-- A state whose primary record has expired while the per-user index still
names it. -/
def demoStaleState : RedisState := removeSession demoStateInterrupted "u1" "s1"

/-- A tool configuration narrowing the allowed decisions to accept only. -/
def demoNoEditConfig : HumanInterruptConfig :=
  { allow_accept := true, allow_edit := false, allow_respond := false,
    allow_ignore := false }

/-- An `edit` decision delivered to the tool wrapper. -/
def demoEditReply : InterruptReply :=
  { type := "edit", edited_args := some [("hotel_name", "Ritz")] }

theorem find?_filter_of_imp {α : Type} (p q : α → Bool)
    (h : ∀ a, p a = true → q a = true) :
    ∀ l : List α, (l.filter q).find? p = l.find? p := by
  intro l
  induction l with
  | nil => rfl
  | cons a l ih =>
    cases hq : q a with
    | false =>
      have hp : p a = false := by
        cases hpa : p a
        · rfl
        · rw [h a hpa] at hq; exact absurd hq (by simp)
      simp [List.filter_cons, hq, List.find?_cons, hp, ih]
    | true =>
      cases hpa : p a <;>
        simp [List.filter_cons, hq, List.find?_cons, hpa, ih]

theorem find?_filter_none {α : Type} (p q : α → Bool)
    (h : ∀ a, p a = true → q a = false) :
    ∀ l : List α, (l.filter q).find? p = none := by
  intro l
  induction l with
  | nil => rfl
  | cons a l ih =>
    cases hq : q a with
    | false => simp [List.filter_cons, hq, ih]
    | true =>
      have hp : p a = false := by
        cases hpa : p a
        · rfl
        · rw [h a hpa] at hq; exact absurd hq (by simp)
      simp [List.filter_cons, hq, List.find?_cons, hp, ih]

theorem lookupSession_setSession (st : RedisState) (u s u' s' : String)
    (d : SessionData) :
    lookupSession (setSession st u s d) u' s' =
      if u' = u ∧ s' = s then some d else lookupSession st u' s' := by
  by_cases h : u' = u ∧ s' = s
  · obtain ⟨h1, h2⟩ := h
    subst h1; subst h2
    simp [lookupSession, setSession, List.find?_cons]
  · rw [if_neg h]
    unfold lookupSession setSession
    simp only [List.find?_cons]
    have hhead : ((u, s, d).1 == u' && (u, s, d).2.1 == s') = false := by
      simp only [beq_iff_eq]
      by_cases h1 : u = u'
      · subst h1
        have h2 : ¬s = s' := fun hs => h ⟨rfl, hs.symm⟩
        simp [fun hs : s = s' => h2 hs]
      · simp [fun hu : u = u' => h1 hu]
    rw [hhead]
    congr 1
    apply find?_filter_of_imp
    intro a ha
    simp only [Bool.and_eq_true, beq_iff_eq] at ha
    cases h1 : (a.1 == u) with
    | false => simp [h1]
    | true =>
      cases h2 : (a.2.1 == s) with
      | false => simp [h1, h2]
      | true =>
        exfalso
        apply h
        refine ⟨?_, ?_⟩
        · rw [← ha.1]; exact eq_of_beq h1
        · rw [← ha.2]; exact eq_of_beq h2

theorem lookupSession_removeSession (st : RedisState) (u s u' s' : String) :
    lookupSession (removeSession st u s) u' s' =
      if u' = u ∧ s' = s then none else lookupSession st u' s' := by
  by_cases h : u' = u ∧ s' = s
  · obtain ⟨h1, h2⟩ := h
    subst h1; subst h2
    rw [if_pos ⟨rfl, rfl⟩]
    unfold lookupSession removeSession
    have hn := find?_filter_none
      (fun e : String × String × SessionData => e.1 == u' && e.2.1 == s')
      (fun e : String × String × SessionData => !(e.1 == u' && e.2.1 == s'))
      (by intro a ha; simp only at ha ⊢; rw [ha]; rfl) st.sessions
    simp only at hn ⊢
    rw [hn]
    rfl
  · rw [if_neg h]
    unfold lookupSession removeSession
    simp only
    congr 1
    apply find?_filter_of_imp
    intro a ha
    simp only [Bool.and_eq_true, beq_iff_eq] at ha
    cases h1 : (a.1 == u) with
    | false => simp [h1]
    | true =>
      cases h2 : (a.2.1 == s) with
      | false => simp [h1, h2]
      | true =>
        exact absurd ⟨by rw [← ha.1]; exact eq_of_beq h1,
          by rw [← ha.2]; exact eq_of_beq h2⟩ h

theorem lookupSession_eq_of_sessions (st st' : RedisState)
    (h : st.sessions = st'.sessions) (u s : String) :
    lookupSession st u s = lookupSession st' u s := by
  unfold lookupSession
  rw [h]

theorem sessions_setIndex (st : RedisState) (u : String) (ids : List String) :
    (setIndex st u ids).sessions = st.sessions := rfl

theorem sessions_removeIndex (st : RedisState) (u : String) :
    (removeIndex st u).sessions = st.sessions := rfl

theorem sessions_saddIndex (st : RedisState) (u s : String) :
    (saddIndex st u s).sessions = st.sessions := rfl

theorem sessions_sremIndex (st : RedisState) (u s : String) :
    (sremIndex st u s).sessions = st.sessions := by
  simp only [sremIndex]
  split <;> rfl

theorem sessions_cleanup (st : RedisState) (u : String) :
    (cleanup_user_sessions st u).sessions = st.sessions := by
  simp only [cleanup_user_sessions]
  split <;> rfl

theorem sessions_cleanup_foldl (us : List String) :
    ∀ st : RedisState, (us.foldl cleanup_user_sessions st).sessions =
      st.sessions := by
  induction us with
  | nil => intro st; rfl
  | cons u us ih =>
    intro st
    rw [List.foldl_cons, ih, sessions_cleanup]

theorem sessions_cleanup_all (st : RedisState) :
    (cleanup_all_sessions st).sessions = st.sessions :=
  sessions_cleanup_foldl _ st

theorem lookupSession_cleanup (st : RedisState) (c u s : String) :
    lookupSession (cleanup_user_sessions st c) u s = lookupSession st u s :=
  lookupSession_eq_of_sessions _ _ (sessions_cleanup st c) u s

theorem carries_of_classify (s : String) (r : RawResult) (t : Nat)
    (h : (classify_agent_result s r t).status = "interrupted") :
    carriesPendingInterrupts (some (classify_agent_result s r t)) = true := by
  cases hr : r.interrupts with
  | none =>
    rw [classify_agent_result] at h
    simp only [hr] at h
    exact absurd h (by decide)
  | some ints =>
    by_cases hl : ints.length > 1
    · simp [classify_agent_result, hr, hl, carriesPendingInterrupts,
        InterruptData.count]
      omega
    · cases ints with
      | nil =>
        rw [classify_agent_result] at h
        simp only [hr] at h
        rw [if_neg (by decide : ¬([] : List Interrupt).length > 1)] at h
        exact absurd h (by decide : ¬("error" : String) = "interrupted")
      | cons i rest =>
        have h0 : rest.length = 0 := by
          simp only [List.length_cons] at hl
          omega
        simp [classify_agent_result, hr, h0, carriesPendingInterrupts,
          InterruptData.count]

theorem InterruptedCarries_of_sessions_eq (st st' : RedisState)
    (h : st.sessions = st'.sessions) (hi : InterruptedCarries st) :
    InterruptedCarries st' := by
  intro u s d hl
  rw [← lookupSession_eq_of_sessions st st' h] at hl
  exact hi u s d hl

theorem InterruptedCarries_setSession (st : RedisState) (u s : String)
    (d : SessionData) (hi : InterruptedCarries st)
    (hd : d.status = "interrupted" →
      carriesPendingInterrupts d.last_response = true) :
    InterruptedCarries (setSession st u s d) := by
  intro u' s' d' hl hstat
  rw [lookupSession_setSession] at hl
  split at hl
  · injection hl with h
    subst h
    exact hd hstat
  · exact hi u' s' d' hl hstat

theorem InterruptedCarries_removeSession (st : RedisState) (u s : String)
    (hi : InterruptedCarries st) :
    InterruptedCarries (removeSession st u s) := by
  intro u' s' d' hl hstat
  rw [lookupSession_removeSession] at hl
  split at hl
  · exact absurd hl (by simp)
  · exact hi u' s' d' hl hstat

theorem InterruptedCarries_cleanup (st : RedisState) (u : String)
    (hi : InterruptedCarries st) :
    InterruptedCarries (cleanup_user_sessions st u) :=
  InterruptedCarries_of_sessions_eq st _ (sessions_cleanup st u).symm hi

theorem InterruptedCarries_update (st : RedisState) (u s stv : String)
    (lq : Option String) (lr : Option AgentResponse) (lu : Option Nat)
    (ttl : Option Nat) (tmo : Nat) (hi : InterruptedCarries st)
    (hs : stv = "interrupted" →
      ∃ r, lr = some r ∧ carriesPendingInterrupts (some r) = true) :
    InterruptedCarries (update_session st u s (some stv) lq lr lu ttl tmo).1 := by
  unfold update_session
  cases hcur : lookupSession st u s with
  | none => simp only [hcur]; exact hi
  | some cur =>
    simp only [hcur]
    apply InterruptedCarries_setSession st u s _ hi
    intro hstat
    simp only [Option.getD_some] at hstat
    obtain ⟨r, hr, hcar⟩ := hs hstat
    subst hr
    simpa using hcar

theorem InterruptedCarries_update_ne (st : RedisState) (u s stv : String)
    (lq : Option String) (lr : Option AgentResponse) (lu : Option Nat)
    (ttl : Option Nat) (tmo : Nat) (hi : InterruptedCarries st)
    (hne : ¬stv = "interrupted") :
    InterruptedCarries (update_session st u s (some stv) lq lr lu ttl tmo).1 :=
  InterruptedCarries_update st u s stv lq lr lu ttl tmo hi
    (fun h => absurd h hne)

theorem InterruptedCarries_create (st : RedisState) (u s stv : String)
    (lq : Option String) (lr : Option AgentResponse) (lu : Option Nat)
    (ttl : Option Nat) (tmo : Nat) (hi : InterruptedCarries st)
    (hd : stv = "interrupted" → carriesPendingInterrupts lr = true) :
    InterruptedCarries (create_session st u s stv lq lr lu ttl tmo).1 := by
  unfold create_session
  simp only
  apply InterruptedCarries_of_sessions_eq (setSession st u s _) _
    (sessions_saddIndex _ _ _).symm
  exact InterruptedCarries_setSession st u s _ hi hd

theorem InterruptedCarries_process (st : RedisState) (u s : String)
    (r : RawResult) (now : Nat) (hi : InterruptedCarries st) :
    InterruptedCarries (process_agent_result st u s r now).1 := by
  simp only [process_agent_result, session_id_exists]
  split
  · apply InterruptedCarries_update _ _ _ _ _ _ _ _ _
      (InterruptedCarries_cleanup st u hi)
    intro hstat
    exact ⟨_, rfl, carries_of_classify s r now hstat⟩
  · exact InterruptedCarries_cleanup st u hi

theorem InterruptedCarries_invoke_pre (st : RedisState) (u s q : String)
    (t0 : Nat) (hi : InterruptedCarries st) :
    InterruptedCarries (invoke_pre st u s q t0).1 := by
  simp only [invoke_pre, session_id_exists]
  apply InterruptedCarries_update_ne
  · split
    · exact InterruptedCarries_cleanup st u hi
    · change InterruptedCarries (create_session (cleanup_user_sessions st u)
        u s "idle" none none (some t0) (some ConfigRedis_TTL)
        ConfigRedis_SESSION_TIMEOUT).1
      exact InterruptedCarries_create _ _ _ _ _ _ _ _ _
        (InterruptedCarries_cleanup st u hi)
        (fun hcon => absurd hcon (by decide))
  · decide

theorem InterruptedCarries_invoke (st : RedisState) (u s q : String)
    (beh : AgentBehavior) (t0 t1 : Nat) (hi : InterruptedCarries st) :
    InterruptedCarries (invoke_agent st u s q beh t0 t1).1 := by
  simp only [invoke_agent]
  split
  · exact InterruptedCarries_process _ _ _ _ _
      (InterruptedCarries_invoke_pre st u s q t0 hi)
  · apply InterruptedCarries_update_ne _ _ _ _ _ _ _ _ _
      (InterruptedCarries_invoke_pre st u s q t0 hi)
    decide

theorem InterruptedCarries_resume_begin (st : RedisState)
    (resp : InterruptResponse) (t0 : Nat) (hi : InterruptedCarries st) :
    InterruptedCarries (resume_begin st resp t0).1 := by
  simp only [resume_begin, session_id_exists]
  split
  · exact InterruptedCarries_cleanup st resp.user_id hi
  · split
    · exact InterruptedCarries_cleanup st resp.user_id hi
    · apply InterruptedCarries_update_ne _ _ _ _ _ _ _ _ _
        (InterruptedCarries_cleanup st resp.user_id hi)
      decide

theorem InterruptedCarries_resume (st : RedisState)
    (resp : InterruptResponse) (beh : AgentBehavior) (t0 t1 : Nat)
    (hi : InterruptedCarries st) :
    InterruptedCarries (resume_agent st resp beh t0 t1).1 := by
  simp only [resume_agent]
  split
  · exact InterruptedCarries_resume_begin st resp t0 hi
  · split
    · exact InterruptedCarries_process _ _ _ _ _
        (InterruptedCarries_resume_begin st resp t0 hi)
    · apply InterruptedCarries_update_ne _ _ _ _ _ _ _ _ _
        (InterruptedCarries_resume_begin st resp t0 hi)
      decide

theorem get_agent_status_state (st : RedisState) (u s : String) :
    (get_agent_status st u s).1 = cleanup_user_sessions st u := by
  simp only [get_agent_status, session_id_exists]
  split
  · rfl
  · split <;> rfl

theorem InterruptedCarries_delete (st : RedisState) (u s : String)
    (hi : InterruptedCarries st) :
    InterruptedCarries (delete_session st u s).1 := by
  simp only [delete_session]
  apply InterruptedCarries_removeSession
  exact InterruptedCarries_of_sessions_eq st _ (sessions_sremIndex st u s).symm hi

/-- The left-to-right half of the claimed invariant holds in every
reachable store state: an `interrupted` record always carries at least one
pending interrupt. -/
theorem reach_InterruptedCarries (st : RedisState) (h : Reach st) :
    InterruptedCarries st := by
  induction h with
  | init =>
    intro u s d hl
    exact absurd hl (by simp [lookupSession, RedisState.empty])
  | invoke_done st u s q beh t0 t1 _ ih =>
    exact InterruptedCarries_invoke st u s q beh t0 t1 ih
  | invoke_inflight st u s q t0 _ ih =>
    exact InterruptedCarries_invoke_pre st u s q t0 ih
  | resume_done st resp beh t0 t1 _ ih =>
    exact InterruptedCarries_resume st resp beh t0 t1 ih
  | resume_inflight st resp t0 _ ih =>
    exact InterruptedCarries_resume_begin st resp t0 ih
  | status_read st u s _ ih =>
    rw [get_agent_status_state]
    exact InterruptedCarries_cleanup st u ih
  | active_read st u _ ih =>
    exact InterruptedCarries_cleanup st u ih
  | list_read st u _ ih =>
    exact InterruptedCarries_cleanup st u ih
  | user_read st u _ ih =>
    exact InterruptedCarries_cleanup st u ih
  | all_read st _ ih =>
    exact InterruptedCarries_of_sessions_eq st _
      (sessions_cleanup_all st).symm ih
  | delete st u s _ ih =>
    exact InterruptedCarries_delete st u s ih
  | expire st u s _ ih =>
    exact InterruptedCarries_removeSession st u s ih

theorem update_session_of_none (st : RedisState) (u s : String)
    (status lq : Option String) (lr : Option AgentResponse)
    (lu ttl : Option Nat) (tmo : Nat) (h : lookupSession st u s = none) :
    update_session st u s status lq lr lu ttl tmo = (st, false) := by
  unfold update_session
  simp only [h]

theorem update_session_of_some (st : RedisState) (u s : String)
    (status lq : Option String) (lr : Option AgentResponse)
    (lu ttl : Option Nat) (tmo : Nat) (cur : SessionData)
    (h : lookupSession st u s = some cur) :
    update_session st u s status lq lr lu ttl tmo =
      (setSession st u s
        { cur with
          status := status.getD cur.status,
          last_response := match lr with
            | some r => some r
            | none => cur.last_response,
          last_query := match lq with
            | some q => some q
            | none => cur.last_query,
          last_updated := match lu with
            | some t => .stamp t
            | none => cur.last_updated,
          ttl := ttl.getD tmo }, true) := by
  unfold update_session
  simp only [h]

theorem lookupSession_create_self (st : RedisState) (u s stv : String)
    (lq : Option String) (lr : Option AgentResponse) (lu ttl : Option Nat)
    (tmo : Nat) :
    lookupSession (create_session st u s stv lq lr lu ttl tmo).1 u s =
      some { session_id := s, status := stv, last_response := lr,
             last_query := lq,
             last_updated := match lu with
               | none => .sentinel
               | some t => .stamp t,
             ttl := ttl.getD tmo } := by
  unfold create_session
  simp only
  rw [lookupSession_eq_of_sessions _ _ (sessions_saddIndex _ _ _)]
  rw [lookupSession_setSession, if_pos ⟨rfl, rfl⟩]

theorem get_agent_status_of_some (st : RedisState) (u s : String)
    (d : SessionData) (h : lookupSession st u s = some d) :
    (get_agent_status st u s).2 =
      { user_id := u, session_id := some s, status := d.status,
        last_query := d.last_query, last_updated := some d.last_updated,
        last_response := d.last_response } := by
  unfold get_agent_status session_id_exists get_session
  simp only [lookupSession_cleanup, h, Option.isSome_some, Bool.not_true,
    Bool.false_eq_true, if_false]

theorem get_agent_status_of_none (st : RedisState) (u s : String)
    (h : lookupSession st u s = none) :
    (get_agent_status st u s).2.status = "not_found" := by
  unfold get_agent_status session_id_exists
  simp only [lookupSession_cleanup, h, Option.isSome_none, Bool.not_false,
    if_true]

/-- C5: `SessionStore.update` is a read-modify-write: on an existing record
it returns `true`, overwrites exactly the supplied (non-`None`) attributes,
preserves every attribute not supplied, refreshes the TTL to the
caller-supplied or default value, and touches no other record; on a missing
record it returns `false` and writes nothing. -/
theorem c5_update_session_semantics (st : RedisState) (u s : String)
    (status lq : Option String) (lr : Option AgentResponse)
    (lu ttl : Option Nat) (tmo : Nat) :
    (lookupSession st u s = none →
      update_session st u s status lq lr lu ttl tmo = (st, false)) ∧
    (∀ cur, lookupSession st u s = some cur →
      (update_session st u s status lq lr lu ttl tmo).2 = true ∧
      (∃ d, lookupSession (update_session st u s status lq lr lu ttl tmo).1
          u s = some d ∧
        (∀ v, status = some v → d.status = v) ∧
        (status = none → d.status = cur.status) ∧
        (∀ r, lr = some r → d.last_response = some r) ∧
        (lr = none → d.last_response = cur.last_response) ∧
        (∀ q, lq = some q → d.last_query = some q) ∧
        (lq = none → d.last_query = cur.last_query) ∧
        (∀ t, lu = some t → d.last_updated = LastUpdated.stamp t) ∧
        (lu = none → d.last_updated = cur.last_updated) ∧
        d.ttl = ttl.getD tmo ∧
        d.session_id = cur.session_id) ∧
      (∀ u' s', ¬(u' = u ∧ s' = s) →
        lookupSession (update_session st u s status lq lr lu ttl tmo).1
          u' s' = lookupSession st u' s')) := by
  constructor
  · intro h
    exact update_session_of_none st u s status lq lr lu ttl tmo h
  · intro cur hcur
    rw [update_session_of_some st u s status lq lr lu ttl tmo cur hcur]
    refine ⟨rfl,
      ⟨{ cur with
           status := status.getD cur.status,
           last_response := match lr with
             | some r => some r
             | none => cur.last_response,
           last_query := match lq with
             | some q => some q
             | none => cur.last_query,
           last_updated := match lu with
             | some t => .stamp t
             | none => cur.last_updated,
           ttl := ttl.getD tmo },
        ?_, ?_, ?_, ?_, ?_, ?_, ?_, ?_, ?_, ?_, ?_⟩, ?_⟩
    · rw [lookupSession_setSession, if_pos ⟨rfl, rfl⟩]
    · intro v hv; rw [hv]; rfl
    · intro hv; rw [hv]; rfl
    · intro r hr; rw [hr]
    · intro hr; rw [hr]
    · intro q hq; rw [hq]
    · intro hq; rw [hq]
    · intro t ht; rw [ht]
    · intro ht; rw [ht]
    · rfl
    · rfl
    · intro u' s' hne
      rw [lookupSession_setSession, if_neg hne]

/-- C10: when the AgentRuntime outcome arrives after the session record has
ceased to exist, `process_agent_result` still returns the classified
response but performs no session-record write (the outcome-persisting
update is skipped), so a later status query reports `not_found`. -/
theorem c10_outcome_after_expiry (st : RedisState) (u s : String)
    (r : RawResult) (now : Nat) (h : lookupSession st u s = none) :
    (process_agent_result st u s r now).2.1 = classify_agent_result s r now ∧
    (process_agent_result st u s r now).1.sessions = st.sessions ∧
    (process_agent_result st u s r now).2.2 = [] ∧
    (get_agent_status (process_agent_result st u s r now).1 u s).2.status =
      "not_found" := by
  have hst : process_agent_result st u s r now =
      (cleanup_user_sessions st u, classify_agent_result s r now, []) := by
    unfold process_agent_result session_id_exists
    simp only [lookupSession_cleanup, h, Option.isSome_none,
      Bool.false_eq_true, if_false]
  rw [hst]
  refine ⟨rfl, sessions_cleanup st u, rfl, ?_⟩
  apply get_agent_status_of_none
  rw [lookupSession_cleanup, h]

theorem beq_false_of_ne {s t : String} (h : ¬s = t) : (s == t) = false := by
  cases hb : (s == t)
  · rfl
  · exact absurd (eq_of_beq hb) h

theorem resume_agent_of_none (st : RedisState) (req : InterruptResponse)
    (beh : AgentBehavior) (t0 t1 : Nat)
    (h : lookupSession st req.user_id req.session_id = none) :
    resume_agent st req beh t0 t1 =
      (cleanup_user_sessions st req.user_id,
       Except.error ⟨404, "用户会话 " ++ req.user_id ++ ":" ++ req.session_id
         ++ " 不存在"⟩, []) := by
  unfold resume_agent resume_begin session_id_exists
  simp only [lookupSession_cleanup, h, Option.isSome_none, Bool.not_false,
    if_true]

theorem resume_agent_of_not_interrupted (st : RedisState)
    (req : InterruptResponse) (beh : AgentBehavior) (t0 t1 : Nat)
    (d : SessionData)
    (h : lookupSession st req.user_id req.session_id = some d)
    (hne : ¬d.status = "interrupted") :
    resume_agent st req beh t0 t1 =
      (cleanup_user_sessions st req.user_id,
       Except.error ⟨400, "会话当前状态为 " ++ d.status
         ++ "，无法恢复非中断状态的会话"⟩, []) := by
  unfold resume_agent resume_begin session_id_exists get_session
  simp only [lookupSession_cleanup, h, Option.isSome_some, Bool.not_true,
    Bool.false_eq_true, if_false, Option.map_some', Option.getD_some,
    beq_false_of_ne hne, Bool.not_false, if_true]

theorem resume_begin_of_interrupted (st : RedisState)
    (req : InterruptResponse) (t0 : Nat) (d : SessionData)
    (h : lookupSession st req.user_id req.session_id = some d)
    (hint : d.status = "interrupted") :
    resume_begin st req t0 =
      (setSession (cleanup_user_sessions st req.user_id) req.user_id
        req.session_id
        { d with
            status := "running", last_updated := .stamp t0,
            ttl := ConfigRedis_TTL },
       none, [.update req.user_id req.session_id true]) := by
  unfold resume_begin session_id_exists get_session
  have hcl : lookupSession (cleanup_user_sessions st req.user_id)
      req.user_id req.session_id = some d := by
    rw [lookupSession_cleanup, h]
  simp only [lookupSession_cleanup, h, Option.isSome_some, Bool.not_true,
    Bool.false_eq_true, if_false, Option.map_some', Option.getD_some, hint]
  rw [update_session_of_some _ _ _ _ _ _ _ _ _ d hcl]
  simp only [beq_self_eq_true, Bool.not_true, Bool.false_eq_true, if_false]
  rfl

theorem process_agent_result_of_some (st : RedisState) (u s : String)
    (r : RawResult) (now : Nat) (cur : SessionData)
    (h : lookupSession st u s = some cur) :
    process_agent_result st u s r now =
      (setSession (cleanup_user_sessions st u) u s
        { cur with
            status := (classify_agent_result s r now).status,
            last_response := some (classify_agent_result s r now),
            last_updated := .stamp now, ttl := ConfigRedis_TTL },
       classify_agent_result s r now, [.update u s true]) := by
  have hcl : lookupSession (cleanup_user_sessions st u) u s = some cur := by
    rw [lookupSession_cleanup, h]
  unfold process_agent_result session_id_exists
  simp only [lookupSession_cleanup, h, Option.isSome_some, if_true]
  rw [update_session_of_some _ _ _ _ _ _ _ _ _ cur hcl]
  rfl

theorem invoke_pre_record (st : RedisState) (u s q : String) (t0 : Nat) :
    ∃ d, lookupSession (invoke_pre st u s q t0).1 u s = some d ∧
      d.status = "running" ∧ d.last_query = some q ∧
      d.last_updated = .stamp t0 ∧ d.ttl = ConfigRedis_TTL := by
  unfold invoke_pre session_id_exists
  cases hex : lookupSession (cleanup_user_sessions st u) u s with
  | some d0 =>
    simp only [hex, Option.isSome_some, if_true]
    rw [update_session_of_some _ _ _ _ _ _ _ _ _ d0 hex]
    refine ⟨{ d0 with
                status := "running", last_query := some q,
                last_updated := .stamp t0, ttl := ConfigRedis_TTL },
      ?_, rfl, rfl, rfl, rfl⟩
    simp only
    rw [lookupSession_setSession, if_pos ⟨rfl, rfl⟩]
    rfl
  | none =>
    simp only [hex, Option.isSome_none, Bool.false_eq_true, if_false]
    have hcr := lookupSession_create_self (cleanup_user_sessions st u) u s
      "idle" none none (some t0) (some ConfigRedis_TTL)
      ConfigRedis_SESSION_TIMEOUT
    rw [update_session_of_some _ _ _ _ _ _ _ _ _ _ hcr]
    refine ⟨{ session_id := s, status := "running", last_response := none,
              last_query := some q, last_updated := .stamp t0,
              ttl := ConfigRedis_TTL },
      ?_, rfl, rfl, rfl, rfl⟩
    simp only
    rw [lookupSession_setSession, if_pos ⟨rfl, rfl⟩]
    rfl

/-- C2: a resume on an existing session whose status is `idle`, `running`,
`completed` or `error` is rejected with the 400 invalid-state error before
AgentRuntime is touched (no call event, no write event), and the record is
left unchanged; a resume for a pair with no live record is rejected with the
404 not-found error. -/
theorem c2_resume_invalid_state_rejected (st : RedisState)
    (req : InterruptResponse) (beh : AgentBehavior) (t0 t1 : Nat) :
    (∀ d, lookupSession st req.user_id req.session_id = some d →
      (d.status = "idle" ∨ d.status = "running" ∨ d.status = "completed" ∨
        d.status = "error") →
      (resume_agent st req beh t0 t1).2.1 =
        Except.error ⟨400, "会话当前状态为 " ++ d.status
          ++ "，无法恢复非中断状态的会话"⟩ ∧
      lookupSession (resume_agent st req beh t0 t1).1 req.user_id
        req.session_id = some d ∧
      (resume_agent st req beh t0 t1).2.2 = []) ∧
    (lookupSession st req.user_id req.session_id = none →
      (resume_agent st req beh t0 t1).2.1 =
        Except.error ⟨404, "用户会话 " ++ req.user_id ++ ":"
          ++ req.session_id ++ " 不存在"⟩ ∧
      (resume_agent st req beh t0 t1).2.2 = []) := by
  constructor
  · intro d hd hor
    have hne : ¬d.status = "interrupted" := by
      rcases hor with h | h | h | h <;> rw [h] <;> decide
    rw [resume_agent_of_not_interrupted st req beh t0 t1 d hd hne]
    exact ⟨rfl, by rw [lookupSession_cleanup, hd], rfl⟩
  · intro h
    rw [resume_agent_of_none st req beh t0 t1 h]
    exact ⟨rfl, rfl⟩

/-- C8: when AgentRuntime raises, both handlers absorb the exception into a
well-formed error `AgentResponse`, persist `status = "error"` with the
message recorded in `last_response`, and a later status query sees
`status = "error"` (for resume, on any session that was `interrupted`, so
that the runtime call actually happens). -/
theorem c8_runtime_failure_absorbed :
    (∀ (st : RedisState) (u s q msg : String) (t0 t1 : Nat),
      (invoke_agent st u s q (.throws msg) t0 t1).2.1 =
        invoke_error_response s msg t1 ∧
      (get_agent_status (invoke_agent st u s q (.throws msg) t0 t1).1
        u s).2.status = "error" ∧
      ((lookupSession (invoke_agent st u s q (.throws msg) t0 t1).1
        u s).bind SessionData.last_response).map AgentResponse.message =
        some (some ("处理请求时出错: " ++ msg))) ∧
    (∀ (st : RedisState) (req : InterruptResponse) (msg : String)
      (t0 t1 : Nat) (d : SessionData),
      lookupSession st req.user_id req.session_id = some d →
      d.status = "interrupted" →
      (resume_agent st req (.throws msg) t0 t1).2.1 =
        Except.ok (resume_error_response req.session_id msg t1) ∧
      (get_agent_status (resume_agent st req (.throws msg) t0 t1).1
        req.user_id req.session_id).2.status = "error" ∧
      ((lookupSession (resume_agent st req (.throws msg) t0 t1).1
        req.user_id req.session_id).bind SessionData.last_response).map
        AgentResponse.message = some (some ("恢复执行时出错: " ++ msg))) := by
  constructor
  · intro st u s q msg t0 t1
    obtain ⟨d, hd, _, _, _, _⟩ := invoke_pre_record st u s q t0
    have hflow : invoke_agent st u s q (.throws msg) t0 t1 =
        ((update_session (invoke_pre st u s q t0).1 u s (some "error") none
          (some (invoke_error_response s msg t1)) (some t1)
          (some ConfigRedis_TTL) ConfigRedis_SESSION_TIMEOUT).1,
         invoke_error_response s msg t1,
         (invoke_pre st u s q t0).2 ++ [Ev.invokeCall,
           Ev.update u s (update_session (invoke_pre st u s q t0).1 u s
             (some "error") none (some (invoke_error_response s msg t1))
             (some t1) (some ConfigRedis_TTL)
             ConfigRedis_SESSION_TIMEOUT).2]) := by
      unfold invoke_agent
      rfl
    have hlook : lookupSession (invoke_agent st u s q (.throws msg) t0 t1).1
        u s = some { d with
          status := "error",
          last_response := some (invoke_error_response s msg t1),
          last_updated := .stamp t1, ttl := ConfigRedis_TTL } := by
      rw [hflow]
      simp only
      rw [update_session_of_some _ _ _ _ _ _ _ _ _ d hd]
      simp only
      rw [lookupSession_setSession, if_pos ⟨rfl, rfl⟩]
      rfl
    refine ⟨by rw [hflow], ?_, ?_⟩
    · rw [get_agent_status_of_some _ _ _ _ hlook]
    · rw [hlook]
      rfl
  · intro st req msg t0 t1 d hd hint
    have hmid : lookupSession (resume_begin st req t0).1 req.user_id
        req.session_id = some { d with
          status := "running",
          last_updated := .stamp t0, ttl := ConfigRedis_TTL } := by
      rw [resume_begin_of_interrupted st req t0 d hd hint]
      simp only
      rw [lookupSession_setSession, if_pos ⟨rfl, rfl⟩]
    have hflow : resume_agent st req (.throws msg) t0 t1 =
        ((update_session (resume_begin st req t0).1 req.user_id
          req.session_id (some "error") none
          (some (resume_error_response req.session_id msg t1)) (some t1)
          (some ConfigRedis_TTL) ConfigRedis_SESSION_TIMEOUT).1,
         Except.ok (resume_error_response req.session_id msg t1),
         (resume_begin st req t0).2.2 ++ [Ev.resumeCall (buildCommand req),
           Ev.update req.user_id req.session_id
             (update_session (resume_begin st req t0).1 req.user_id
               req.session_id (some "error") none
               (some (resume_error_response req.session_id msg t1))
               (some t1) (some ConfigRedis_TTL)
               ConfigRedis_SESSION_TIMEOUT).2]) := by
      unfold resume_agent
      rw [resume_begin_of_interrupted st req t0 d hd hint]
    have hlook : lookupSession
        (resume_agent st req (.throws msg) t0 t1).1 req.user_id
        req.session_id = some { d with
          status := "error",
          last_response := some (resume_error_response req.session_id msg t1),
          last_updated := .stamp t1, ttl := ConfigRedis_TTL } := by
      rw [hflow]
      simp only
      rw [update_session_of_some _ _ _ _ _ _ _ _ _ _ hmid]
      simp only
      rw [lookupSession_setSession, if_pos ⟨rfl, rfl⟩]
      rfl
    refine ⟨by rw [hflow], ?_, ?_⟩
    · rw [get_agent_status_of_some _ _ _ _ hlook]
    · rw [hlook]
      rfl

/-- Witness for C2 at concrete inputs: resume of a completed session is
rejected with 400; resume of an unknown session is rejected with 404. -/
theorem c2_resume_invalid_state_rejected_witness :
    (resume_agent demoStateCompleted demoResumeReq (.returns demoDone)
      5 6).2.1 = Except.error
        ⟨400, "会话当前状态为 completed，无法恢复非中断状态的会话"⟩ ∧
    (resume_agent RedisState.empty demoResumeReq (.returns demoDone)
      5 6).2.1 = Except.error ⟨404, "用户会话 u1:s1 不存在"⟩ := by
  constructor
  · have h := ((c2_resume_invalid_state_rejected demoStateCompleted
      demoResumeReq (.returns demoDone) 5 6).1 demoRecordCompleted
      (by decide) (Or.inr (Or.inr (Or.inl (by decide))))).1
    exact h.trans (congrArg Except.error (by decide))
  · exact (((c2_resume_invalid_state_rejected RedisState.empty demoResumeReq
      (.returns demoDone) 5 6).2 (by decide)).1).trans
      (congrArg Except.error (by decide))

/-- Witness for C5 at concrete inputs: updating a missing record writes
nothing and reports `false`; updating an existing record reports `true`. -/
theorem c5_update_session_semantics_witness :
    update_session RedisState.empty "u1" "s1" (some "running") none none
      (some 5) none 300 = (RedisState.empty, false) ∧
    (update_session demoStateCompleted "u1" "s1" (some "idle") none none
      (some 9) none 300).2 = true := by
  constructor
  · exact (c5_update_session_semantics RedisState.empty "u1" "s1"
      (some "running") none none (some 5) none 300).1 (by decide)
  · exact ((c5_update_session_semantics demoStateCompleted "u1" "s1"
      (some "idle") none none (some 9) none 300).2 demoRecordCompleted
      (by decide)).1

/-- Witness for C8 at concrete inputs: after the runtime raises, the status
query reports `error` for both invoke and resume, and on the resume path
the persisted `last_response` records the failure message. -/
theorem c8_runtime_failure_absorbed_witness :
    (get_agent_status (invoke_agent RedisState.empty "u1" "s1" "hi"
      (.throws "boom") 1 2).1 "u1" "s1").2.status = "error" ∧
    (get_agent_status (resume_agent demoStateInterrupted demoResumeReq
      (.throws "boom") 3 4).1 "u1" "s1").2.status = "error" ∧
    ((lookupSession (resume_agent demoStateInterrupted demoResumeReq
      (.throws "boom") 3 4).1 "u1" "s1").bind SessionData.last_response).map
      AgentResponse.message = some (some "恢复执行时出错: boom") := by
  refine ⟨?_, ?_, ?_⟩
  · exact (c8_runtime_failure_absorbed.1 RedisState.empty "u1" "s1" "hi"
      "boom" 1 2).2.1
  · exact (c8_runtime_failure_absorbed.2 demoStateInterrupted demoResumeReq
      "boom" 3 4 demoRecordInterrupted (by decide) (by decide)).2.1
  · exact ((c8_runtime_failure_absorbed.2 demoStateInterrupted demoResumeReq
      "boom" 3 4 demoRecordInterrupted (by decide) (by decide)).2.2).trans
      (by decide)

/-- Witness for C10 at a concrete input: the record expired while the call
was in flight, the classified response is still produced, and the status
query then reports `not_found`. -/
theorem c10_outcome_after_expiry_witness :
    (process_agent_result demoStaleState "u1" "s1" demoDone 7).2.1 =
      classify_agent_result "s1" demoDone 7 ∧
    (get_agent_status (process_agent_result demoStaleState "u1" "s1"
      demoDone 7).1 "u1" "s1").2.status = "not_found" := by
  have h := c10_outcome_after_expiry demoStaleState "u1" "s1" demoDone 7
    (by decide)
  exact ⟨h.1, h.2.2.2⟩

theorem classify_status_of_carries (s : String) (r : RawResult) (t : Nat)
    (h : carriesPendingInterrupts (some (classify_agent_result s r t)) =
      true) : (classify_agent_result s r t).status = "interrupted" := by
  cases hr : r.interrupts with
  | none =>
    rw [classify_agent_result] at h
    simp only [hr] at h
    simp [carriesPendingInterrupts] at h
  | some ints =>
    by_cases hl : ints.length > 1
    · rw [classify_agent_result]
      simp only [hr]
      rw [if_pos hl]
    · cases ints with
      | nil =>
        rw [classify_agent_result] at h
        simp only [hr] at h
        rw [if_neg (by decide : ¬([] : List Interrupt).length > 1)] at h
        simp [carriesPendingInterrupts] at h
      | cons i rest =>
        have h0 : rest.length = 0 := by
          simp only [List.length_cons] at hl
          omega
        rw [classify_agent_result]
        simp only [hr]
        rw [if_neg hl]

/-- C1 (amended): the left-to-right half of the claimed invariant holds in
every reachable store state — an `interrupted` record always carries one or
more pending interrupts — and outcome classification produces
`status = "interrupted"` exactly when its response carries a
pending-interrupt payload.  The right-to-left half fails for stored records
in general: the `running` update at the start of a resume (or of a repeated
invoke) does not clear the previous `last_response`, so a `running` record
may still carry the pending payload (see the counterexample). -/
theorem c1_interrupted_iff_pending_amended :
    (∀ st, Reach st → InterruptedCarries st) ∧
    (∀ (s : String) (r : RawResult) (t : Nat),
      (classify_agent_result s r t).status = "interrupted" ↔
      carriesPendingInterrupts (some (classify_agent_result s r t)) = true) := by
  constructor
  · exact reach_InterruptedCarries
  · intro s r t
    exact ⟨carries_of_classify s r t, classify_status_of_carries s r t⟩

/-- C1 counterexample: in the reachable state persisted while a resume is
in flight, the record's status is `running` while its `last_response` still
carries the pending interrupt, and a status query observes exactly that —
falsifying the claimed "only if" direction of the invariant. -/
theorem c1_counterexample :
    Reach demoStateMidResume ∧
    (lookupSession demoStateMidResume "u1" "s1").map SessionData.status =
      some "running" ∧
    carriesPendingInterrupts ((lookupSession demoStateMidResume "u1"
      "s1").bind SessionData.last_response) = true ∧
    (get_agent_status demoStateMidResume "u1" "s1").2.status = "running" ∧
    ((get_agent_status demoStateMidResume "u1" "s1").2.last_response.bind
      AgentResponse.interrupt_data).isSome = true := by
  refine ⟨?_, by decide, by decide, by decide, by decide⟩
  exact Reach.resume_inflight demoStateInterrupted demoResumeReq 3
    (Reach.invoke_done RedisState.empty "u1" "s1" "book a flight"
      (.returns demoOutcome) 1 2 Reach.init)

/-- Witness for C1 (amended) at a concrete input: the interrupted demo
record does carry its pending interrupt. -/
theorem c1_interrupted_iff_pending_witness :
    carriesPendingInterrupts demoRecordInterrupted.last_response = true := by
  exact c1_interrupted_iff_pending_amended.1 demoStateInterrupted
    (Reach.invoke_done RedisState.empty "u1" "s1" "book a flight"
      (.returns demoOutcome) 1 2 Reach.init)
    "u1" "s1" demoRecordInterrupted (by decide) (by decide)


theorem resume_agent_returns_of_interrupted (st : RedisState)
    (req : InterruptResponse) (r : RawResult) (t0 t1 : Nat) (d : SessionData)
    (hd : lookupSession st req.user_id req.session_id = some d)
    (hint : d.status = "interrupted") :
    resume_agent st req (.returns r) t0 t1 =
      ((process_agent_result (resume_begin st req t0).1 req.user_id
         req.session_id r t1).1,
       .ok (process_agent_result (resume_begin st req t0).1 req.user_id
         req.session_id r t1).2.1,
       [Ev.update req.user_id req.session_id true,
        Ev.resumeCall (buildCommand req)] ++
       (process_agent_result (resume_begin st req t0).1 req.user_id
         req.session_id r t1).2.2) := by
  have h21 : (resume_begin st req t0).2.1 = none := by
    rw [resume_begin_of_interrupted st req t0 d hd hint]
  have h22 : (resume_begin st req t0).2.2 =
      [Ev.update req.user_id req.session_id true] := by
    rw [resume_begin_of_interrupted st req t0 d hd hint]
  simp only [resume_agent]
  rw [h21, h22]
  rfl

theorem classify_of_no_interrupts (s : String) (r : RawResult) (t : Nat)
    (hri : r.interrupts = none) :
    classify_agent_result s r t =
      { session_id := s, status := "completed", timestamp := t,
        result := some r.payload } := by
  rw [classify_agent_result]
  simp only [hri]

/-- C6 (amended): resuming an interrupted session with an outcome that
carries no further interrupts persists `status = "completed"` with the
completed response recorded and `last_updated` advanced to the fresh
timestamp; however `last_query` is NOT cleared — it keeps its previous
value, because the handlers pass `None` for it and `update_session` does
not overwrite a field with `None` (see the counterexample). -/
theorem c6_resume_completed_amended (st : RedisState)
    (req : InterruptResponse) (r : RawResult) (t0 t1 : Nat) (d : SessionData)
    (hd : lookupSession st req.user_id req.session_id = some d)
    (hint : d.status = "interrupted") (hri : r.interrupts = none)
    (hclock : ∀ tp, d.last_updated = LastUpdated.stamp tp → tp < t1) :
    (resume_agent st req (.returns r) t0 t1).2.1 =
      Except.ok { session_id := req.session_id, status := "completed",
                  timestamp := t1, result := some r.payload } ∧
    (∃ dfin, lookupSession (resume_agent st req (.returns r) t0 t1).1
        req.user_id req.session_id = some dfin ∧
      dfin.status = "completed" ∧
      dfin.last_response = some { session_id := req.session_id,
                                  status := "completed", timestamp := t1,
                                  result := some r.payload } ∧
      dfin.last_query = d.last_query ∧
      dfin.last_updated = .stamp t1 ∧
      (∀ tp, d.last_updated = LastUpdated.stamp tp → tp < t1)) := by
  have hmid : lookupSession (resume_begin st req t0).1 req.user_id
      req.session_id = some { d with
        status := "running",
        last_updated := .stamp t0, ttl := ConfigRedis_TTL } := by
    rw [resume_begin_of_interrupted st req t0 d hd hint]
    simp only
    rw [lookupSession_setSession, if_pos ⟨rfl, rfl⟩]
  have hproc := process_agent_result_of_some (resume_begin st req t0).1
    req.user_id req.session_id r t1 _ hmid
  have hflow := resume_agent_returns_of_interrupted st req r t0 t1 d hd hint
  have hcls := classify_of_no_interrupts req.session_id r t1 hri
  constructor
  · rw [hflow]
    simp only
    rw [hproc]
    simp only
    rw [hcls]
  · refine ⟨{ d with
        status := "completed",
        last_response := some { session_id := req.session_id,
                                status := "completed", timestamp := t1,
                                result := some r.payload },
        last_updated := .stamp t1, ttl := ConfigRedis_TTL },
      ?_, rfl, rfl, rfl, rfl, hclock⟩
    rw [hflow]
    simp only
    rw [hproc]
    simp only
    rw [lookupSession_setSession, if_pos ⟨rfl, rfl⟩, hcls]

/-- C6 counterexample: after the scenario resume completes, the persisted
record is `completed` but `last_query` still holds the original query —
it was not cleared. -/
theorem c6_counterexample :
    (lookupSession (resume_agent demoStateInterrupted demoResumeReq
      (.returns demoDone) 3 4).1 "u1" "s1").map SessionData.status =
      some "completed" ∧
    (lookupSession (resume_agent demoStateInterrupted demoResumeReq
      (.returns demoDone) 3 4).1 "u1" "s1").map SessionData.last_query =
      some (some "book a flight") := by
  exact ⟨by decide, by decide⟩

/-- Witness for C6 (amended) at a concrete input. -/
theorem c6_resume_completed_witness :
    (resume_agent demoStateInterrupted demoResumeReq (.returns demoDone)
      3 4).2.1 = Except.ok { session_id := "s1", status := "completed",
                             timestamp := 4,
                             result := some [("messages", "done")] } := by
  have hclock : ∀ tp, demoRecordInterrupted.last_updated =
      LastUpdated.stamp tp → tp < 4 := by
    intro tp htp
    have hlu : demoRecordInterrupted.last_updated = LastUpdated.stamp 2 := by
      decide
    rw [hlu] at htp
    injection htp with h
    omega
  exact (c6_resume_completed_amended demoStateInterrupted demoResumeReq
    demoDone 3 4 demoRecordInterrupted (by decide) (by decide) (by decide)
    hclock).1


theorem process_trace_writes (st : RedisState) (u s : String)
    (r : RawResult) (now : Nat) :
    ∀ e, e ∈ (process_agent_result st u s r now).2.2 → e.isWrite = true := by
  intro e he
  simp only [process_agent_result] at he
  split at he
  · simp only [List.mem_singleton] at he
    subst he
    rfl
  · simp at he

theorem resume_trace_of_interrupted (st : RedisState)
    (req : InterruptResponse) (beh : AgentBehavior) (t0 t1 : Nat)
    (d : SessionData)
    (hd : lookupSession st req.user_id req.session_id = some d)
    (hint : d.status = "interrupted") :
    ∃ post, (resume_agent st req beh t0 t1).2.2 =
      [Ev.update req.user_id req.session_id true,
       Ev.resumeCall (buildCommand req)] ++ post ∧
      (∀ e, e ∈ post → e.isWrite = true) := by
  cases beh with
  | returns r =>
    rw [resume_agent_returns_of_interrupted st req r t0 t1 d hd hint]
    exact ⟨(process_agent_result (resume_begin st req t0).1 req.user_id
      req.session_id r t1).2.2, rfl,
      process_trace_writes (resume_begin st req t0).1 req.user_id
        req.session_id r t1⟩
  | throws msg =>
    have h21 : (resume_begin st req t0).2.1 = none := by
      rw [resume_begin_of_interrupted st req t0 d hd hint]
    have h22 : (resume_begin st req t0).2.2 =
        [Ev.update req.user_id req.session_id true] := by
      rw [resume_begin_of_interrupted st req t0 d hd hint]
    simp only [resume_agent]
    rw [h21, h22]
    refine ⟨[Ev.update req.user_id req.session_id
      (update_session (resume_begin st req t0).1 req.user_id req.session_id
        (some "error") none
        (some (resume_error_response req.session_id msg t1)) (some t1)
        (some ConfigRedis_TTL) ConfigRedis_SESSION_TIMEOUT).2], rfl, ?_⟩
    intro e he
    simp only [List.mem_singleton] at he
    subst he
    rfl

theorem resume_agent_ok_of_interrupted (st : RedisState)
    (req : InterruptResponse) (beh : AgentBehavior) (t0 t1 : Nat)
    (d : SessionData)
    (hd : lookupSession st req.user_id req.session_id = some d)
    (hint : d.status = "interrupted") :
    ∃ resp, (resume_agent st req beh t0 t1).2.1 = Except.ok resp := by
  have h21 : (resume_begin st req t0).2.1 = none := by
    rw [resume_begin_of_interrupted st req t0 d hd hint]
  cases beh with
  | returns r =>
    refine ⟨(process_agent_result (resume_begin st req t0).1 req.user_id
      req.session_id r t1).2.1, ?_⟩
    simp only [resume_agent]
    rw [h21]
  | throws msg =>
    refine ⟨resume_error_response req.session_id msg t1, ?_⟩
    simp only [resume_agent]
    rw [h21]

/-- C3 (amended): the resume endpoint performs no decision validation at
all — for any decision payload it first writes the store (`running`) and
then invokes AgentRuntime with the request's command data; the only type
dispatch lives inside the tool wrapper during runtime execution, where the
per-tool `interrupt_config` (`allowed_decisions`) is never consulted, the
four types `accept`, `edit`, `reject`, `response` are always honoured, and
any other type raises `ValueError` there (surfacing as a runtime failure),
not as a pre-side-effect `InvalidDecision` rejection. -/
theorem c3_decision_validation_amended :
    (∀ (st : RedisState) (req : InterruptResponse) (beh : AgentBehavior)
      (t0 t1 : Nat) (d : SessionData),
      lookupSession st req.user_id req.session_id = some d →
      d.status = "interrupted" →
      ∃ post, (resume_agent st req beh t0 t1).2.2 =
        [Ev.update req.user_id req.session_id true,
         Ev.resumeCall (buildCommand req)] ++ post) ∧
    (∀ (n : String) (i : Dict) (c c' : Option HumanInterruptConfig)
      (rp : InterruptReply),
      call_tool_with_interrupt n i c rp = call_tool_with_interrupt n i c' rp) ∧
    (∀ (n : String) (i : Dict) (c : Option HumanInterruptConfig)
      (rp : InterruptReply),
      ¬rp.type = "accept" → ¬rp.type = "edit" → ¬rp.type = "reject" →
      ¬rp.type = "response" →
      call_tool_with_interrupt n i c rp =
        .valueError ("不支持的中断响应类型: " ++ rp.type)) := by
  refine ⟨?_, ?_, ?_⟩
  · intro st req beh t0 t1 d hd hint
    obtain ⟨post, hpost, _⟩ :=
      resume_trace_of_interrupted st req beh t0 t1 d hd hint
    exact ⟨post, hpost⟩
  · intro n i c c' rp
    rfl
  · intro n i c rp h1 h2 h3 h4
    simp only [call_tool_with_interrupt, beq_false_of_ne h1,
      beq_false_of_ne h2, beq_false_of_ne h3, beq_false_of_ne h4,
      Bool.false_eq_true, if_false]

/-- C3 counterexample: an `edit` decision against a tool whose
`interrupt_config` forbids edits is not rejected anywhere — the wrapper
executes the edited action, and the resume endpoint writes the store,
invokes AgentRuntime and returns a normal response. -/
theorem c3_counterexample :
    call_tool_with_interrupt "book_hotel" [("hotel_name", "Hilton")]
      (some demoNoEditConfig) demoEditReply =
      .executed [("hotel_name", "Ritz")] ∧
    (resume_agent demoStateInterrupted demoEditResumeReq (.returns demoDone)
      3 4).2.1 = Except.ok (classify_agent_result "s1" demoDone 4) ∧
    (resume_agent demoStateInterrupted demoEditResumeReq (.returns demoDone)
      3 4).2.2.any Ev.isWrite = true ∧
    (resume_agent demoStateInterrupted demoEditResumeReq (.returns demoDone)
      3 4).2.2.any Ev.isAgentCall = true := by
  exact ⟨by decide, by decide, by decide, by decide⟩

/-- Witness for C3 (amended) at concrete inputs. -/
theorem c3_decision_validation_witness :
    (∃ post, (resume_agent demoStateInterrupted demoEditResumeReq
      (.returns demoDone) 3 4).2.2 =
      [Ev.update "u1" "s1" true,
       Ev.resumeCall (buildCommand demoEditResumeReq)] ++ post) ∧
    call_tool_with_interrupt "multiply" [] none
      { type := "accept" } =
      call_tool_with_interrupt "multiply" [] (some demoNoEditConfig)
        { type := "accept" } ∧
    call_tool_with_interrupt "multiply" [] (some demoNoEditConfig)
      { type := "ignore" } = .valueError "不支持的中断响应类型: ignore" := by
  refine ⟨?_, ?_, ?_⟩
  · exact c3_decision_validation_amended.1 demoStateInterrupted
      demoEditResumeReq (.returns demoDone) 3 4 demoRecordInterrupted
      (by decide) (by decide)
  · exact c3_decision_validation_amended.2.1 "multiply" [] none
      (some demoNoEditConfig) { type := "accept" }
  · exact (c3_decision_validation_amended.2.2 "multiply" []
      (some demoNoEditConfig) { type := "ignore" } (by decide) (by decide)
      (by decide) (by decide)).trans (by decide)

/-- C4 (amended): no batch-completeness check exists — for a session with
pending interrupts, any truthy `interrupt_responses` map (covering the
pending interrupts or not) is forwarded verbatim to AgentRuntime after the
session is set to `running`, and the endpoint returns a normal response
rather than a rejection. -/
theorem c4_partial_batch_forwarded_amended (st : RedisState)
    (req : InterruptResponse) (beh : AgentBehavior) (t0 t1 : Nat)
    (d : SessionData)
    (hd : lookupSession st req.user_id req.session_id = some d)
    (hint : d.status = "interrupted")
    (hbatch : truthyResponses req.interrupt_responses = true) :
    ∃ post, (resume_agent st req beh t0 t1).2.2 =
      [Ev.update req.user_id req.session_id true,
       Ev.resumeCall (.batch (req.interrupt_responses.getD []))] ++ post ∧
      (∃ resp, (resume_agent st req beh t0 t1).2.1 = Except.ok resp) := by
  have hcmd : buildCommand req =
      .batch (req.interrupt_responses.getD []) := by
    simp only [buildCommand, hbatch, if_true]
  obtain ⟨post, hpost, _⟩ :=
    resume_trace_of_interrupted st req beh t0 t1 d hd hint
  rw [hcmd] at hpost
  exact ⟨post, hpost,
    resume_agent_ok_of_interrupted st req beh t0 t1 d hd hint⟩

/-- C4 counterexample: with three pending interrupts, a resume supplying
decisions for only two of them is not rejected — AgentRuntime is invoked,
a normal response is returned, and the session does not remain
`interrupted` (here it completes). -/
theorem c4_counterexample :
    ((lookupSession demoState3 "u1" "s1").bind
      SessionData.last_response).map
        (fun resp => resp.interrupt_data.map InterruptData.count) =
      some (some 3) ∧
    (resume_agent demoState3 demoPartialBatchReq (.returns demoDone)
      3 4).2.1 = Except.ok (classify_agent_result "s1" demoDone 4) ∧
    (lookupSession (resume_agent demoState3 demoPartialBatchReq
      (.returns demoDone) 3 4).1 "u1" "s1").map SessionData.status =
      some "completed" ∧
    (resume_agent demoState3 demoPartialBatchReq (.returns demoDone)
      3 4).2.2.any Ev.isAgentCall = true := by
  exact ⟨by decide, by decide, by decide, by decide⟩

/-- Witness for C4 (amended) at a concrete input. -/
theorem c4_partial_batch_forwarded_witness :
    ∃ post, (resume_agent demoState3 demoPartialBatchReq (.returns demoDone)
      3 4).2.2 =
      [Ev.update "u1" "s1" true,
       Ev.resumeCall (.batch [("i1", [("type", "accept")]),
                              ("i2", [("type", "accept")])])] ++ post ∧
      (∃ resp, (resume_agent demoState3 demoPartialBatchReq
        (.returns demoDone) 3 4).2.1 = Except.ok resp) := by
  exact c4_partial_batch_forwarded_amended demoState3 demoPartialBatchReq
    (.returns demoDone) 3 4 demoRecord3 (by decide) (by decide) (by decide)

theorem invoke_pre_any_write (st : RedisState) (u s q : String) (t0 : Nat) :
    (invoke_pre st u s q t0).2.any Ev.isWrite = true := by
  simp only [invoke_pre]
  rw [List.any_append]
  simp [Ev.isWrite]

/-- C9 (amended): in each call chain the outcome-persisting writes happen
strictly after the AgentRuntime call (every event after the call is a
store write), but — contrary to the claim as stated — writes also precede
the call: the record creation and the `running` update are issued before
AgentRuntime is invoked. -/
theorem c9_write_ordering_amended :
    (∀ (st : RedisState) (u s q : String) (beh : AgentBehavior) (t0 t1 : Nat),
      ∃ pre post, (invoke_agent st u s q beh t0 t1).2.2 =
        pre ++ [Ev.invokeCall] ++ post ∧
        pre.any Ev.isWrite = true ∧
        (∀ e, e ∈ post → e.isWrite = true)) ∧
    (∀ (st : RedisState) (req : InterruptResponse) (beh : AgentBehavior)
      (t0 t1 : Nat),
      (resume_agent st req beh t0 t1).2.2 = [] ∨
      ∃ pre post cmd, (resume_agent st req beh t0 t1).2.2 =
        pre ++ [Ev.resumeCall cmd] ++ post ∧
        pre.any Ev.isWrite = true ∧
        (∀ e, e ∈ post → e.isWrite = true)) := by
  constructor
  · intro st u s q beh t0 t1
    cases beh with
    | returns r =>
      refine ⟨(invoke_pre st u s q t0).2,
        (process_agent_result (invoke_pre st u s q t0).1 u s r t1).2.2,
        ?_, invoke_pre_any_write st u s q t0,
        process_trace_writes (invoke_pre st u s q t0).1 u s r t1⟩
      simp only [invoke_agent]
    | throws msg =>
      refine ⟨(invoke_pre st u s q t0).2,
        [Ev.update u s (update_session (invoke_pre st u s q t0).1 u s
          (some "error") none (some (invoke_error_response s msg t1))
          (some t1) (some ConfigRedis_TTL) ConfigRedis_SESSION_TIMEOUT).2],
        ?_, invoke_pre_any_write st u s q t0, ?_⟩
      · simp only [invoke_agent]
        rw [List.append_assoc]
        rfl
      · intro e he
        simp only [List.mem_singleton] at he
        subst he
        rfl
  · intro st req beh t0 t1
    cases hlk : lookupSession st req.user_id req.session_id with
    | none =>
      left
      rw [resume_agent_of_none st req beh t0 t1 hlk]
    | some d =>
      by_cases hint : d.status = "interrupted"
      · right
        obtain ⟨post, hpost, hwr⟩ :=
          resume_trace_of_interrupted st req beh t0 t1 d hlk hint
        exact ⟨[Ev.update req.user_id req.session_id true], post,
          buildCommand req, hpost, rfl, hwr⟩
      · left
        rw [resume_agent_of_not_interrupted st req beh t0 t1 d hlk hint]

/-- C9 counterexample: in a concrete invoke, a session-store write occurs
strictly before the AgentRuntime call returns (the claim asserts all
writes happen strictly after it). -/
theorem c9_counterexample :
    ((invoke_agent RedisState.empty "u1" "s1" "hello" (.returns demoDone)
      1 2).2.2.takeWhile (fun e => !e.isAgentCall)).any Ev.isWrite =
      true := by
  decide

/-- Witness for C9 (amended) at a concrete input. -/
theorem c9_write_ordering_witness :
    ∃ pre post, (invoke_agent RedisState.empty "u1" "s1" "hello"
      (.returns demoDone) 1 2).2.2 = pre ++ [Ev.invokeCall] ++ post ∧
      pre.any Ev.isWrite = true ∧ (∀ e, e ∈ post → e.isWrite = true) := by
  exact c9_write_ordering_amended.1 RedisState.empty "u1" "s1" "hello"
    (.returns demoDone) 1 2


theorem any_filter_false {α : Type} (p q : α → Bool)
    (h : ∀ a, p a = true → q a = false) :
    ∀ l : List α, (l.filter q).any p = false := by
  intro l
  induction l with
  | nil => rfl
  | cons a l ih =>
    cases hq : q a with
    | false => simp [List.filter_cons, hq, ih]
    | true =>
      have hp : p a = false := by
        cases hpa : p a
        · rfl
        · rw [h a hpa] at hq; exact absurd hq (by simp)
      simp [List.filter_cons, hq, List.any_cons, hp, ih]

theorem lookupIndex_setIndex_self (st : RedisState) (u : String)
    (ids : List String) : lookupIndex (setIndex st u ids) u = ids := by
  unfold lookupIndex setIndex
  simp [List.find?_cons]

theorem lookupIndex_setIndex_ne (st : RedisState) (u : String)
    (ids : List String) (u' : String) (h : ¬u' = u) :
    lookupIndex (setIndex st u ids) u' = lookupIndex st u' := by
  unfold lookupIndex setIndex
  simp only [List.find?_cons]
  rw [beq_false_of_ne (fun he => h he.symm)]
  have himp : ∀ a : String × List String,
      (a.1 == u') = true → (!(a.1 == u)) = true := by
    intro a ha
    have ha' : a.1 = u' := eq_of_beq ha
    rw [ha', beq_false_of_ne h]
    rfl
  rw [find?_filter_of_imp _ _ himp]

theorem lookupIndex_removeIndex_self (st : RedisState) (u : String) :
    lookupIndex (removeIndex st u) u = [] := by
  unfold lookupIndex removeIndex
  have hn := find?_filter_none
    (fun e : String × List String => e.1 == u)
    (fun e : String × List String => !(e.1 == u))
    (by intro a ha; simp only at ha ⊢; rw [ha]; rfl) st.user_sessions
  simp only at hn ⊢
  rw [hn]
  rfl

theorem lookupIndex_removeIndex_ne (st : RedisState) (u u' : String)
    (h : ¬u' = u) :
    lookupIndex (removeIndex st u) u' = lookupIndex st u' := by
  unfold lookupIndex removeIndex
  have himp : ∀ a : String × List String,
      (a.1 == u') = true → (!(a.1 == u)) = true := by
    intro a ha
    have ha' : a.1 = u' := eq_of_beq ha
    rw [ha', beq_false_of_ne h]
    rfl
  rw [find?_filter_of_imp _ _ himp]

theorem indexHasKey_removeIndex_self (st : RedisState) (u : String) :
    indexHasKey (removeIndex st u) u = false := by
  unfold indexHasKey removeIndex
  exact any_filter_false _ _
    (by intro a ha; rw [show (a.1 == u) = true from ha]; rfl)
    st.user_sessions

theorem lookupIndex_cleanup_self (st : RedisState) (u : String) :
    lookupIndex (cleanup_user_sessions st u) u =
      (lookupIndex st u).filter
        (fun s => (lookupSession st u s).isSome) := by
  simp only [cleanup_user_sessions]
  split
  · next hempty =>
    rw [lookupIndex_removeIndex_self]
    exact (List.isEmpty_iff.mp hempty).symm
  · rw [lookupIndex_setIndex_self]

theorem lookupIndex_cleanup_ne (st : RedisState) (w u : String)
    (h : ¬u = w) :
    lookupIndex (cleanup_user_sessions st w) u = lookupIndex st u := by
  simp only [cleanup_user_sessions]
  split
  · rw [lookupIndex_removeIndex_ne st w u h]
  · rw [lookupIndex_setIndex_ne st w _ u h]

theorem indexHasKey_cleanup_empty (st : RedisState) (u : String)
    (h : (lookupIndex st u).filter
      (fun s => (lookupSession st u s).isSome) = []) :
    indexHasKey (cleanup_user_sessions st u) u = false := by
  simp only [cleanup_user_sessions]
  split
  · exact indexHasKey_removeIndex_self st u
  · next hne =>
    rw [h] at hne
    exact absurd rfl hne

theorem bestSessionScan_live (st : RedisState) (u : String) :
    ∀ (l : List String) (acc : Option (String × Nat)),
      (∀ p, acc = some p → (lookupSession st u p.1).isSome = true) →
      ∀ s, bestSessionScan st u l acc = some s →
        (lookupSession st u s).isSome = true := by
  intro l
  induction l with
  | nil =>
    intro acc hacc s h
    simp only [bestSessionScan] at h
    cases hac : acc with
    | none => rw [hac] at h; exact absurd h (by simp)
    | some p =>
      rw [hac] at h
      simp only [Option.map_some'] at h
      injection h with h'
      rw [← h']
      exact hacc p hac
  | cons hd tl ih =>
    intro acc hacc s h
    simp only [bestSessionScan] at h
    split at h
    · exact ih acc hacc s h
    · next d heq =>
      split at h
      · exact ih acc hacc s h
      · next t hlu =>
        split at h
        · refine ih _ ?_ s h
          intro p hp
          injection hp with hp'
          rw [← hp']
          show (lookupSession st u hd).isSome = true
          rw [heq]
          rfl
        · next best =>
          split at h
          · refine ih _ ?_ s h
            intro p hp
            injection hp with hp'
            rw [← hp']
            show (lookupSession st u hd).isSome = true
            rw [heq]
            rfl
          · exact ih _ hacc s h

theorem mem_user_sessions_cleanup (st : RedisState) (w : String)
    (e : String × List String)
    (he : e ∈ (cleanup_user_sessions st w).user_sessions) :
    e ∈ st.user_sessions ∨ e.1 = w := by
  simp only [cleanup_user_sessions] at he
  split at he
  · simp only [removeIndex] at he
    exact Or.inl (List.mem_filter.mp he).1
  · simp only [setIndex] at he
    rcases List.mem_cons.mp he with h | h
    · right
      rw [h]
    · exact Or.inl (List.mem_filter.mp h).1

theorem entry_live_cleanup_self (st : RedisState) (u : String)
    (e : String × List String)
    (he : e ∈ (cleanup_user_sessions st u).user_sessions) (hk : e.1 = u) :
    ∀ s, s ∈ e.2 → (lookupSession st u s).isSome = true := by
  simp only [cleanup_user_sessions] at he
  split at he
  · simp only [removeIndex] at he
    have hkey := (List.mem_filter.mp he).2
    rw [hk] at hkey
    simp at hkey
  · simp only [setIndex] at he
    rcases List.mem_cons.mp he with h | h
    · intro s hs
      rw [h] at hs
      simp only at hs
      exact (List.mem_filter.mp hs).2
    · have hkey := (List.mem_filter.mp h).2
      rw [hk] at hkey
      simp at hkey

theorem foldl_cleanup_entries :
    ∀ (us : List String) (st : RedisState),
      (∀ e, e ∈ st.user_sessions →
        (∀ s, s ∈ e.2 → (lookupSession st e.1 s).isSome = true) ∨
          e.1 ∈ us) →
      ∀ e, e ∈ (us.foldl cleanup_user_sessions st).user_sessions →
        ∀ s, s ∈ e.2 →
          (lookupSession (us.foldl cleanup_user_sessions st) e.1 s).isSome =
            true := by
  intro us
  induction us with
  | nil =>
    intro st h e he s hs
    rcases h e he with hl | hmem
    · exact hl s hs
    · exact absurd hmem (List.not_mem_nil _)
  | cons w us ih =>
    intro st h e he s hs
    rw [List.foldl_cons] at he ⊢
    refine ih (cleanup_user_sessions st w) ?_ e he s hs
    intro e' he'
    rcases mem_user_sessions_cleanup st w e' he' with horig | hw
    · rcases h e' horig with hl | hm
      · left
        intro s' hs'
        rw [lookupSession_cleanup]
        exact hl s' hs'
      · rcases List.mem_cons.mp hm with h1 | h2
        · left
          intro s' hs'
          rw [lookupSession_cleanup, h1]
          exact entry_live_cleanup_self st w e' he' h1 s' hs'
        · right
          exact h2
    · left
      intro s' hs'
      rw [lookupSession_cleanup, hw]
      exact entry_live_cleanup_self st w e' he' hw s' hs'

theorem cleanup_all_index_live (st : RedisState) :
    ∀ e, e ∈ (cleanup_all_sessions st).user_sessions →
      ∀ s, s ∈ e.2 → (lookupSession st e.1 s).isSome = true := by
  intro e he s hs
  have he' : e ∈ ((st.user_sessions.map
      (fun x : String × List String => x.1)).foldl
      cleanup_user_sessions st).user_sessions := he
  have h := foldl_cleanup_entries
    (st.user_sessions.map (fun x : String × List String => x.1)) st
    (fun e1 he1 => Or.inr (List.mem_map.mpr ⟨e1, he1, rfl⟩)) e he' s hs
  rw [lookupSession_eq_of_sessions _ st
    (sessions_cleanup_foldl
      (st.user_sessions.map (fun x : String × List String => x.1)) st)] at h
  exact h

/-- C7: every index-dependent read (`get_all_session_ids`,
`get_user_active_session_id`, `user_id_exists`, the system-wide
`get_all_users_session_ids`) first runs lazy reconciliation — which removes
from the user's set every session id whose primary record no longer exists
and deletes the set once empty — and consequently none of these reads ever
returns an expired session. -/
theorem c7_lazy_reconciliation (st : RedisState) (u : String) :
    (get_all_session_ids st u).1 = cleanup_user_sessions st u ∧
    (get_user_active_session_id st u).1 = cleanup_user_sessions st u ∧
    (user_id_exists st u).1 = cleanup_user_sessions st u ∧
    (get_all_users_session_ids st).1 = cleanup_all_sessions st ∧
    lookupIndex (cleanup_user_sessions st u) u =
      (lookupIndex st u).filter (fun s => (lookupSession st u s).isSome) ∧
    ((lookupIndex st u).filter (fun s => (lookupSession st u s).isSome) =
        [] → indexHasKey (cleanup_user_sessions st u) u = false) ∧
    (∀ s, s ∈ (get_all_session_ids st u).2 →
      (lookupSession st u s).isSome = true) ∧
    (∀ s, (get_user_active_session_id st u).2 = some s →
      (lookupSession st u s).isSome = true) ∧
    ((user_id_exists st u).2 = true →
      ∃ s, s ∈ lookupIndex st u ∧ (lookupSession st u s).isSome = true) ∧
    (∀ p, p ∈ (get_all_users_session_ids st).2 →
      ∀ s, s ∈ p.2 → (lookupSession st p.1 s).isSome = true) := by
  refine ⟨rfl, rfl, rfl, rfl, lookupIndex_cleanup_self st u,
    indexHasKey_cleanup_empty st u, ?_, ?_, ?_, ?_⟩
  · intro s hs
    have hs' : s ∈ lookupIndex (cleanup_user_sessions st u) u := hs
    rw [lookupIndex_cleanup_self st u] at hs'
    exact (List.mem_filter.mp hs').2
  · intro s hs
    have hs' : bestSessionScan (cleanup_user_sessions st u) u
        (lookupIndex (cleanup_user_sessions st u) u) none = some s := hs
    have hlive := bestSessionScan_live (cleanup_user_sessions st u) u
      (lookupIndex (cleanup_user_sessions st u) u) none
      (fun p hp => absurd hp (by simp)) s hs'
    rw [lookupSession_cleanup] at hlive
    exact hlive
  · intro hex
    have hex' : indexHasKey (cleanup_user_sessions st u) u = true := hex
    by_cases hfil : (lookupIndex st u).filter
        (fun s => (lookupSession st u s).isSome) = []
    · rw [indexHasKey_cleanup_empty st u hfil] at hex'
      exact absurd hex' (by simp)
    · cases hlist : (lookupIndex st u).filter
          (fun s => (lookupSession st u s).isSome) with
      | nil => exact absurd hlist hfil
      | cons a l =>
        have ha : a ∈ (lookupIndex st u).filter
            (fun s => (lookupSession st u s).isSome) := by
          rw [hlist]
          exact List.mem_cons_self a l
        have hmem := List.mem_filter.mp ha
        exact ⟨a, hmem.1, hmem.2⟩
  · intro p hp s hs
    have hp' : p ∈ (cleanup_all_sessions st).user_sessions :=
      (List.mem_filter.mp hp).1
    exact cleanup_all_index_live st p hp' s hs

/-- Witness for C7 at concrete inputs: with a live interrupted session the
reads return it; with a stale index entry the reads return nothing and the
emptied set is deleted. -/
theorem c7_lazy_reconciliation_witness :
    (lookupSession demoStateInterrupted "u1" "s1").isSome = true ∧
    (get_all_session_ids demoStaleState "u1").2 = [] ∧
    (get_user_active_session_id demoStaleState "u1").2 = none ∧
    (user_id_exists demoStaleState "u1").2 = false := by
  refine ⟨?_, by decide, by decide, by decide⟩
  exact (c7_lazy_reconciliation demoStateInterrupted "u1").2.2.2.2.2.2.1
    "s1" (by decide)


end NexusAgent
